import Mathlib

/-!
# DrawingPika photo journal: the client script `frontend/public/static/script.js`

A shallow embedding of the in-memory photo index of the client (the globals
`uploadedFiles`, `allPhotosFlat`, `selectedDate`), of the operations that change
it (`loadPhotosFromServer`, the local removal of `deleteSinglePhoto`,
`deleteAllPhotos`, `selectDate`) and of the renderers that project it to DOM
children (`renderBlogGallery`, `renderGridGallery`, `renderCalendar`,
`renderEditPhotoSelection`).

Modelling conventions.

* A DOM container is modelled by the list of children the renderer appends to
  it after clearing it.
* A JavaScript object used as a dictionary (`uploadedFiles`) is the list of its
  own properties in enumeration order (`Object.values`, `for … in`).
* `photoDateTime` is modelled by the time value (milliseconds since the epoch)
  that `new Date(file.photoDateTime)` yields; records whose `photoDateTime`
  does not parse (Invalid Date) are outside the model. A record is given by its
  time value; `localTimeValue` gives the time value that a text without zone
  designator is parsed to in a zone of a given offset.
* Keys of `uploadedFiles` are date keys; property names inherited from
  `Object.prototype` are not looked up.
* `toISOString().split('T')[0]` is the ISO text of the UTC calendar day of a
  time value; it is computed below from the day number.
-/

namespace DrawingPika

/-! ## Calendar-day keys (`toISOString().split('T')[0]`) -/

/-- Milliseconds in a day. -/
def msPerDay : Int := 86400000

/-- The day number of a time value: `floor(t / msPerDay)`. -/
def Day (t : Int) : Int := t / msPerDay

/-- Gregorian leap-year rule. -/
def isLeapYear (y : Int) : Bool :=
  decide (y % 4 = 0 ∧ y % 100 ≠ 0) || decide (y % 400 = 0)

/-- The year of a day number and the day within that year (0-based), by 400-, 100-, 4- and
1-year cycles counted from 0001-01-01, which is day `-719162`. -/
def yearAndDayWithinYear (day : Int) : Int × Nat :=
  let d0 := day + 719162
  let n400 := d0 / 146097
  let r400 := d0 % 146097
  let n100 := min (r400 / 36524) 3
  let r100 := r400 - n100 * 36524
  let n4 := r100 / 1461
  let r4 := r100 % 1461
  let n1 := min (r4 / 365) 3
  let doy := r4 - n1 * 365
  (400 * n400 + 100 * n100 + 4 * n4 + n1 + 1, doy.toNat)

/-- The day within the year on which month `m` (0-based) starts. -/
def monthStart (leap : Bool) (m : Nat) : Nat :=
  let l := if leap then 1 else 0
  match m with
  | 0 => 0
  | 1 => 31
  | 2 => 59 + l
  | 3 => 90 + l
  | 4 => 120 + l
  | 5 => 151 + l
  | 6 => 181 + l
  | 7 => 212 + l
  | 8 => 243 + l
  | 9 => 273 + l
  | 10 => 304 + l
  | _ => 334 + l

/-- The month (0-based) that contains a day within the year. -/
def monthFromDayWithinYear (leap : Bool) (doy : Nat) : Nat :=
  let l := if leap then 1 else 0
  if doy < 31 then 0
  else if doy < 59 + l then 1
  else if doy < 90 + l then 2
  else if doy < 120 + l then 3
  else if doy < 151 + l then 4
  else if doy < 181 + l then 5
  else if doy < 212 + l then 6
  else if doy < 243 + l then 7
  else if doy < 273 + l then 8
  else if doy < 304 + l then 9
  else if doy < 334 + l then 10
  else 11

/-- A calendar date: year, month (0-based, as `getUTCMonth`), day of month (1-based). -/
structure CivilDate where
  year : Int
  month : Nat
  date : Nat
deriving DecidableEq, Repr

/-- The UTC calendar date of a day number. -/
def civilFromDay (day : Int) : CivilDate :=
  let yd := yearAndDayWithinYear day
  let leap := isLeapYear yd.1
  let m := monthFromDayWithinYear leap yd.2
  { year := yd.1, month := m, date := yd.2 - monthStart leap m + 1 }

/-- Decimal digits of a number, most significant first (`fuel` bounds the number of digits). -/
def decimalDigits : Nat → Nat → List Char
  | 0, _ => []
  | fuel + 1, n =>
    if n < 10 then [Nat.digitChar n]
    else decimalDigits fuel (n / 10) ++ [Nat.digitChar (n % 10)]

/-- The decimal text of `n`, padded on the left with zeros to at least `minLength` characters
(ECMAScript `ToZeroPaddedDecimalString`). -/
def toZeroPaddedDecimalString (n minLength : Nat) : List Char :=
  let s := decimalDigits (n + 1) n
  List.replicate (minLength - s.length) '0' ++ s

/-- Two-digit field of an ISO date (months and days of month are below 100). -/
def pad2 (n : Nat) : List Char := [Nat.digitChar (n / 10), Nat.digitChar (n % 10)]

/-- The year field of `toISOString`: four digits for years 0 to 9999, otherwise a sign and at
least six digits. -/
def isoYear (y : Int) : List Char :=
  if 0 ≤ y ∧ y ≤ 9999 then toZeroPaddedDecimalString y.toNat 4
  else if y < 0 then '-' :: toZeroPaddedDecimalString (-y).toNat 6
  else '+' :: toZeroPaddedDecimalString y.toNat 6

/-- The characters of `YYYY-MM-DD` for a day number. -/
def isoDateChars (day : Int) : List Char :=
  let c := civilFromDay day
  isoYear c.year ++ ('-' :: pad2 (c.month + 1) ++ '-' :: pad2 c.date)

/-- Calendar-day key of a time value: `new Date(t).toISOString().split('T')[0]`. -/
def dateKey (t : Int) : String := String.mk (isoDateChars (Day t))

/-- Text of a number as `String(n)` gives it for an integer. -/
def numberToString (i : Int) : List Char :=
  if i < 0 then '-' :: decimalDigits ((-i).toNat + 1) (-i).toNat
  else decimalDigits (i.toNat + 1) i.toNat

/-- `String(n).padStart(2, '0')` for a non-negative integer. -/
def padStart2 (n : Nat) : List Char := toZeroPaddedDecimalString n 2

/-- Day number of the first day of year `y` (ECMAScript `DayFromYear`). -/
def dayFromYear (y : Int) : Int :=
  365 * (y - 1970) + (y - 1969) / 4 - (y - 1901) / 100 + (y - 1601) / 400

/-- Day of the week of a day number, 0 = Sunday (ECMAScript `WeekDay`). -/
def weekDay (day : Int) : Nat := ((day + 4) % 7).toNat

/-! ## Data model -/

/-- One uploaded photograph, as the server lists it. `photoDateTime` is the time value of
`new Date(photoDateTime)`; `location` and `description` may be missing. -/
structure PhotoRecord where
  id : String
  fileName : String
  title : String
  photoDateTime : Int
  location : Option String
  description : Option String
deriving DecidableEq, Repr

/-- An object that maps date keys to arrays of records: its own properties in enumeration
order. -/
abbrev Grouped := List (String × List PhotoRecord)

/-- A file picked or dropped by the user: its name and its MIME type. -/
structure File where
  name : String
  type : String
deriving DecidableEq, Repr

/-- The module-level variables of the script that the index, the selection, the staged files
and the edit form live in. `currentDate` is kept by its local calendar fields. -/
structure AppState where
  currentDate : CivilDate
  uploadedFiles : Grouped
  allPhotosFlat : List PhotoRecord
  selectedDate : Option String
  filesToUpload : List File
  filesToBulkUpload : List File
  currentlyEditingPhotoId : Option String
  currentEditPhotoRotation : Nat
deriving DecidableEq, Repr

/-- The variables as the script initialises them, for a given current date. -/
def initialState (now : CivilDate) : AppState :=
  { currentDate := now
    uploadedFiles := []
    allPhotosFlat := []
    selectedDate := none
    filesToUpload := []
    filesToBulkUpload := []
    currentlyEditingPhotoId := none
    currentEditPhotoRotation := 0 }

/-- `Array.prototype.sort(compareFn)`: the stable sort by a consistent comparator, an element
`a` staying in front of `b` when `compareFn(a, b) <= 0`. -/
def arraySort {α : Type} (compareFn : α → α → Int) (xs : List α) : List α :=
  xs.insertionSort (fun a b => compareFn a b ≤ 0)

/-- The comparator of both galleries:
`(a, b) => new Date(b.photoDateTime) - new Date(a.photoDateTime)`. -/
def newestFirst (a b : PhotoRecord) : Int := b.photoDateTime - a.photoDateTime

/-- Assignment through an alias of the array stored under `key`: the property keeps its place
and holds the new contents. -/
def updateBucket (key : String) (contents : List PhotoRecord) : Grouped → Grouped
  | [] => []
  | (k, b) :: rest =>
    if k = key then (k, contents) :: rest else (k, b) :: updateBucket key contents rest

/-! ## Loading and deleting -/

/-- Outcome of `fetch('/api/photos?_=…')` followed by `response.json()`: a success response
whose body has a `photos` object or none, a response that is not ok, or a thrown error
(network failure, unparsable body). -/
inductive ListResponse where
  | ok (photos : Option Grouped)
  | notOk
  | failed
deriving DecidableEq, Repr

/-- The `forEach` of `loadPhotosFromServer`: `allPhotosFlat = allPhotosFlat.concat(dateFiles)`
for each value of `uploadedFiles`, starting from `[]`. -/
def flattenBuckets (uploadedFiles : Grouped) : List PhotoRecord :=
  (uploadedFiles.map Prod.snd).foldl (fun allPhotosFlat dateFiles => allPhotosFlat ++ dateFiles) []

/-- Model of `loadPhotosFromServer` for a given outcome of the list request. -/
def loadPhotosFromServer (response : ListResponse) (s : AppState) : AppState :=
  match response with
  | ListResponse.ok photos =>
    let uploadedFiles := photos.getD []
    { s with uploadedFiles := uploadedFiles, allPhotosFlat := flattenBuckets uploadedFiles }
  | ListResponse.notOk => { s with uploadedFiles := [], allPhotosFlat := [] }
  | ListResponse.failed => { s with uploadedFiles := [], allPhotosFlat := [] }

/-- The local removal of `deleteSinglePhoto` after a success response: the record is filtered
out of `allPhotosFlat` and out of every bucket, and a bucket left empty is deleted. -/
def removeFromLocalState (photoId : String) (s : AppState) : AppState :=
  { s with
    allPhotosFlat := s.allPhotosFlat.filter (fun photo => photo.id != photoId)
    uploadedFiles := s.uploadedFiles.filterMap (fun kb =>
      let bucket := kb.2.filter (fun photo => photo.id != photoId)
      if bucket.length = 0 then none else some (kb.1, bucket)) }

/-- The local clearing of `deleteAllPhotos` after a success response. -/
def clearLocalState (s : AppState) : AppState :=
  { s with allPhotosFlat := [], uploadedFiles := [] }

/-! ## Renderers -/

/-- The bucket that `selectedDate && uploadedFiles[selectedDate]` yields when it is truthy:
`selectedDate` is neither `null` nor empty and `uploadedFiles` has a property of that name. -/
def selectedBucket (s : AppState) : Option (String × List PhotoRecord) :=
  match s.selectedDate with
  | none => none
  | some d => if d = "" then none else (s.uploadedFiles.lookup d).map (fun bucket => (d, bucket))

/-- The records chosen for display before they are sorted: the selected bucket, or else all
records. -/
def filesSelected (s : AppState) : List PhotoRecord :=
  match selectedBucket s with
  | some (_, bucket) => bucket
  | none => s.allPhotosFlat

/-- The common head of `renderBlogGallery` and `renderGridGallery`: `filesToShow` is the
selected bucket itself, or a copy of `allPhotosFlat`, and is then sorted in place, newest
first. Sorting the bucket itself changes `uploadedFiles`. -/
def sortedFilesToShow (s : AppState) : AppState × List PhotoRecord :=
  match selectedBucket s with
  | some (d, bucket) =>
    let filesToShow := arraySort newestFirst bucket
    ({ s with uploadedFiles := updateBucket d filesToShow s.uploadedFiles }, filesToShow)
  | none => (s, arraySort newestFirst s.allPhotosFlat)

/-- Children of the blog container. A heading keeps the time value it is formatted from. -/
inductive BlogNode where
  | emptyState
  | dateHeading (photoDateObj : Int)
  | blogEntry (file : PhotoRecord)
  | entrySeparator
  | dateSeparator
deriving DecidableEq, Repr

/-- The heading step of the `forEach` of `renderBlogGallery`: a heading is appended when the
key of the file differs from `lastDate`. -/
def dateHeadingFor (lastDate : Option String) (file : PhotoRecord) : List BlogNode :=
  if some (dateKey file.photoDateTime) ≠ lastDate then [BlogNode.dateHeading file.photoDateTime]
  else []

/-- The separator step of the `forEach` of `renderBlogGallery`: nothing after the last file,
otherwise the light separator when the next file has the same key and the heavy one when not. -/
def separatorAfter (currentDateKey : String) (rest : List PhotoRecord) : List BlogNode :=
  match rest with
  | [] => []
  | next :: _ =>
    if currentDateKey = dateKey next.photoDateTime then [BlogNode.entrySeparator]
    else [BlogNode.dateSeparator]

/-- The `forEach` of `renderBlogGallery` over the remaining files, `lastDate` being the key
of the last heading: the heading if any, the entry, the separator if any. -/
def blogEntries : Option String → List PhotoRecord → List BlogNode
  | _, [] => []
  | lastDate, file :: rest =>
    let currentDateKey := dateKey file.photoDateTime
    let lastDate' := if some currentDateKey ≠ lastDate then some currentDateKey else lastDate
    dateHeadingFor lastDate file
      ++ BlogNode.blogEntry file :: separatorAfter currentDateKey rest
      ++ blogEntries lastDate' rest

/-- Model of `renderBlogGallery`: the state afterwards and the children of `blogGallery`. -/
def renderBlogGallery (s : AppState) : AppState × List BlogNode :=
  let shown := sortedFilesToShow s
  if shown.2.length = 0 then (shown.1, [BlogNode.emptyState])
  else (shown.1, blogEntries none shown.2)

/-- Children of the gallery grid. -/
inductive GridNode where
  | emptyState
  | galleryItem (file : PhotoRecord)
deriving DecidableEq, Repr

/-- Model of `renderGridGallery`: the state afterwards and the children of `galleryGrid`. -/
def renderGridGallery (s : AppState) : AppState × List GridNode :=
  let shown := sortedFilesToShow s
  if shown.2.length = 0 then (shown.1, [GridNode.emptyState])
  else (shown.1, shown.2.map GridNode.galleryItem)

/-- Children of the calendar grid; a day cell keeps its number, its date key and the classes
`has-upload`, `today` and `selected`. -/
inductive CalendarCell where
  | dayHeader (name : String)
  | emptyDay
  | day (day : Nat) (dateKey : String) (hasUpload today selected : Bool)
deriving DecidableEq, Repr

/-- What `renderCalendar` writes: the month title and the cells of the grid. -/
structure CalendarView where
  currentMonth : String
  cells : List CalendarCell
deriving DecidableEq, Repr

/-- The table `monthNames`. -/
def monthNames : List String :=
  ["January", "February", "March", "April", "May", "June",
   "July", "August", "September", "October", "November", "December"]

/-- The table `dayHeaders`. -/
def dayHeaders : List String := ["Sun", "Mon", "Tue", "Wed", "Thu", "Fri", "Sat"]

/-- The year a `Date` constructor takes a year argument for: 0 to 99 mean 1900 to 1999. -/
def makeFullYear (year : Int) : Int := if 0 ≤ year ∧ year ≤ 99 then 1900 + year else year

/-- The key of a calendar cell:
`year-String(month + 1).padStart(2, '0')-String(day).padStart(2, '0')`. -/
def calendarDateKey (year : Int) (month day : Nat) : String :=
  String.mk (numberToString year ++ ('-' :: padStart2 (month + 1) ++ '-' :: padStart2 day))

/-- Model of `renderCalendar` for the real current date `today`: the state is only read. -/
def renderCalendar (today : CivilDate) (s : AppState) : AppState × CalendarView :=
  let year := s.currentDate.year
  let month := s.currentDate.month
  let leap := isLeapYear (makeFullYear year)
  let firstDay := weekDay (dayFromYear (makeFullYear year) + monthStart leap month)
  let daysInMonth := if month = 11 then 31 else monthStart leap (month + 1) - monthStart leap month
  let days := (List.range daysInMonth).map (fun i =>
    let day := i + 1
    let dateKey := calendarDateKey year month day
    let hasUpload :=
      match s.uploadedFiles.lookup dateKey with
      | some bucket => decide (bucket.length > 0)
      | none => false
    CalendarCell.day day dateKey hasUpload
      (decide (year = today.year ∧ month = today.month ∧ day = today.date))
      (decide (s.selectedDate = some dateKey)))
  (s, { currentMonth := monthNames.getD month "undefined" ++ " " ++ String.mk (numberToString year)
        cells := dayHeaders.map CalendarCell.dayHeader
          ++ List.replicate firstDay CalendarCell.emptyDay ++ days })

/-- Model of `renderEditPhotoSelection`: the options of the edit drop-down, a copy of
`allPhotosFlat` sorted by title with the platform collation `localeCompare`; the edit form is
reset. -/
def renderEditPhotoSelection (localeCompare : String → String → Int) (s : AppState) :
    AppState × List PhotoRecord :=
  ({ s with currentlyEditingPhotoId := none, currentEditPhotoRotation := 0 },
   arraySort (fun a b => localeCompare a.title b.title) s.allPhotosFlat)

/-- The three views that `selectDate` redraws. -/
structure MainViews where
  calendar : CalendarView
  blog : List BlogNode
  grid : List GridNode
deriving DecidableEq, Repr

/-- Model of `selectDate`: toggles the filter, then `renderCalendar`, `renderBlogGallery` and
`renderGridGallery` run in this order. -/
def selectDate (today : CivilDate) (dateKey : String) (s : AppState) : AppState × MainViews :=
  let s0 := { s with selectedDate := if s.selectedDate = some dateKey then none else some dateKey }
  let c := renderCalendar today s0
  let b := renderBlogGallery c.1
  let g := renderGridGallery b.1
  (g.1, { calendar := c.2, blog := b.2, grid := g.2 })

/-! ## Reading the rendered children -/

/-- The records whose entries a blog feed contains, in feed order. -/
def blogRecords (nodes : List BlogNode) : List PhotoRecord :=
  nodes.filterMap (fun node =>
    match node with
    | BlogNode.blogEntry file => some file
    | _ => none)

/-- The records whose tiles a grid contains, in grid order. -/
def gridRecords (nodes : List GridNode) : List PhotoRecord :=
  nodes.filterMap (fun node =>
    match node with
    | GridNode.galleryItem file => some file
    | _ => none)

/-- Whether a child of the blog container is a date heading. -/
def BlogNode.isHeading : BlogNode → Bool
  | BlogNode.dateHeading _ => true
  | _ => false

/-- Whether a child of the blog container is a blog entry. -/
def BlogNode.isEntry : BlogNode → Bool
  | BlogNode.blogEntry _ => true
  | _ => false

/-- Whether a child of the blog container is a separator, light or heavy. -/
def BlogNode.isSeparator : BlogNode → Bool
  | BlogNode.entrySeparator => true
  | BlogNode.dateSeparator => true
  | _ => false

/-- The calendar-day keys of the date headings of a feed, in feed order. -/
def headingKeys (nodes : List BlogNode) : List String :=
  nodes.filterMap (fun node =>
    match node with
    | BlogNode.dateHeading photoDateObj => some (dateKey photoDateObj)
    | _ => none)

/-- The headings and entries a feed is to contain for the records shown, in the words of the
specification: each record preceded by a heading exactly when it is the first record or its
calendar-day key differs from the key of the record before it. -/
def headingsAndEntries (shown : List PhotoRecord) : List BlogNode :=
  (List.zip (none :: shown.map some) shown).flatMap (fun pair =>
    (if pair.1.map (fun previous => dateKey previous.photoDateTime)
        ≠ some (dateKey pair.2.photoDateTime)
      then [BlogNode.dateHeading pair.2.photoDateTime] else [])
    ++ [BlogNode.blogEntry pair.2])

/-- The entries and separators a feed is to contain for the records shown, in the words of the
specification: after each record except the last one separator, light when the next record has
the same calendar-day key and heavy otherwise. -/
def entriesAndSeparators (shown : List PhotoRecord) : List BlogNode :=
  (List.zip shown (shown.tail.map some ++ [none])).flatMap (fun pair =>
    BlogNode.blogEntry pair.1 ::
      match pair.2 with
      | none => []
      | some next =>
        if dateKey pair.1.photoDateTime = dateKey next.photoDateTime
        then [BlogNode.entrySeparator] else [BlogNode.dateSeparator])

/-- What may stand right after a separator: a date heading after the heavy one, a blog entry
after the light one. -/
def SeparatorFollowedBy (a b : BlogNode) : Prop :=
  (a = BlogNode.dateSeparator → ∃ t, b = BlogNode.dateHeading t) ∧
  (a = BlogNode.entrySeparator → ∃ file, b = BlogNode.blogEntry file)

/-! ## Sample data -/

/-- A record whose time value is 2024-01-05T10:00Z. -/
def photo1000 : PhotoRecord :=
  { id := "p1", fileName := "p1.jpg", title := "Morning", photoDateTime := 1704448800000,
    location := none, description := none }

/-- A record whose time value is 2024-01-05T15:00Z. -/
def photo1500 : PhotoRecord :=
  { id := "p2", fileName := "p2.jpg", title := "Afternoon", photoDateTime := 1704466800000,
    location := none, description := none }

/-- The grouped data of a server that holds the two sample records, in upload order. -/
def sampleGrouped : Grouped := [("2024-01-05", [photo1000, photo1500])]

/-- The state after loading the two sample records, on 5 January 2024. -/
def sampleState : AppState :=
  loadPhotosFromServer (ListResponse.ok (some sampleGrouped)) (initialState ⟨2024, 0, 5⟩)

/-- The loaded sample state with the day of the two records selected in the calendar. -/
def sampleSelected : AppState := { sampleState with selectedDate := some "2024-01-05" }

/-- The loaded sample state with a day selected on which there is no photo. -/
def sampleOtherDay : AppState := { sampleState with selectedDate := some "2024-02-01" }

/-! ## Consistency of the index and reachable states -/

/-- The grouped data put every record under the key of its own calendar day. -/
def DayGrouped (g : Grouped) : Prop :=
  ∀ kb ∈ g, ∀ r ∈ kb.2, kb.1 = dateKey r.photoDateTime

/-- Membership form of the agreement between `allPhotosFlat` and the buckets. -/
def SameRecords (uploadedFiles : Grouped) (allPhotosFlat : List PhotoRecord) : Prop :=
  ∀ r, r ∈ allPhotosFlat ↔ ∃ kb ∈ uploadedFiles, r ∈ kb.2

/-- The two halves of the index agree: every record of `allPhotosFlat` is in a bucket of
exactly one key, a bucket holds only records of the calendar day that is its key, and every
record of a bucket is in `allPhotosFlat`. -/
def Consistent (s : AppState) : Prop :=
  (∀ r ∈ s.allPhotosFlat, ∃! key, ∃ bucket, (key, bucket) ∈ s.uploadedFiles ∧ r ∈ bucket) ∧
  (∀ kb ∈ s.uploadedFiles, ∀ r ∈ kb.2, kb.1 = dateKey r.photoDateTime) ∧
  (∀ kb ∈ s.uploadedFiles, ∀ r ∈ kb.2, r ∈ s.allPhotosFlat)

/-- The states the script reaches from its initial variables by loading (any outcome of the
list request, the grouped data of a success response satisfying `wellGrouped`), by the local
removal and clearing of the two delete operations, and by the redraws and date selections in
between. -/
inductive Reachable (wellGrouped : Grouped → Prop) : AppState → Prop where
  | init (now : CivilDate) : Reachable wellGrouped (initialState now)
  | load (response : ListResponse) (s : AppState) :
      Reachable wellGrouped s →
      (∀ g, response = ListResponse.ok (some g) → wellGrouped g) →
      Reachable wellGrouped (loadPhotosFromServer response s)
  | remove (photoId : String) (s : AppState) :
      Reachable wellGrouped s → Reachable wellGrouped (removeFromLocalState photoId s)
  | clear (s : AppState) : Reachable wellGrouped s → Reachable wellGrouped (clearLocalState s)
  | select (today : CivilDate) (dateKey : String) (s : AppState) :
      Reachable wellGrouped s → Reachable wellGrouped (selectDate today dateKey s).1
  | blog (s : AppState) : Reachable wellGrouped s → Reachable wellGrouped (renderBlogGallery s).1
  | grid (s : AppState) : Reachable wellGrouped s → Reachable wellGrouped (renderGridGallery s).1
  | calendar (today : CivilDate) (s : AppState) :
      Reachable wellGrouped s → Reachable wellGrouped (renderCalendar today s).1
  | edit (localeCompare : String → String → Int) (s : AppState) :
      Reachable wellGrouped s → Reachable wellGrouped (renderEditPhotoSelection localeCompare s).1

/-- Grouped data in which one record sits under two keys, one of them not its day. -/
def misgrouped : Grouped := [("2024-01-05", [photo1000]), ("2024-01-06", [photo1000])]

/-! ## Text: `trim`, `split('\n')`, numbers in messages -/

/-- The characters that `String.prototype.trim` strips: ECMAScript white space and line
terminators. -/
def isWhiteSpace (c : Char) : Bool :=
  let n := c.toNat
  n = 9 || n = 10 || n = 11 || n = 12 || n = 13 || n = 32 || n = 160 || n = 5760
    || (8192 ≤ n && n ≤ 8202) || n = 8232 || n = 8233 || n = 8239 || n = 8287 || n = 12288
    || n = 65279

/-- The text of `trim` on the characters of a string. -/
def trimChars (cs : List Char) : List Char :=
  ((cs.dropWhile isWhiteSpace).reverse.dropWhile isWhiteSpace).reverse

/-- Model of `String.prototype.trim`. -/
def trim (s : String) : String := String.mk (trimChars s.data)

/-- The segments of `split('\n')` on the characters of a string. -/
def splitNewlineChars : List Char → List (List Char)
  | [] => [[]]
  | c :: cs =>
    if c = '\n' then [] :: splitNewlineChars cs
    else
      match splitNewlineChars cs with
      | [] => [[c]]
      | segment :: segments => (c :: segment) :: segments

/-- Model of `split('\n')`. -/
def splitNewline (s : String) : List String := (splitNewlineChars s.data).map String.mk

/-- The decimal text of a count, as a template literal prints it. -/
def natToString (n : Nat) : String := String.mk (decimalDigits (n + 1) n)

/-! ## The content of a blog entry -/

/-- The platform values a run of the script reads: `window.location.origin` and the value
of `Date.now()`. -/
structure Env where
  origin : String
  now : Nat
deriving DecidableEq, Repr

/-- The address of an image: `origin/photos/fileName?_=cacheBuster`. -/
def imageUrl (env : Env) (fileName : String) : String :=
  env.origin ++ "/photos/" ++ fileName ++ "?_=" ++ natToString env.now

/-- The parts that `entryHTML` is put together from, in document order: the header (title,
the time value the time of day is formatted from, the location if any), a description block
with its paragraphs, the image container. -/
inductive EntryPart where
  | header (title : String) (photoDateObj : Int) (location : Option String)
  | description (paragraphs : List String)
  | image (src alt : String)
deriving DecidableEq, Repr

/-- The lines of a description that the entry shows:
`file.description.split('\n').filter(p => p.trim())`. -/
def descriptionParts (description : String) : List String :=
  (splitNewline description).filter (fun p => trim p != "")

/-- Truthiness of `file.description && file.description.trim()`. -/
def hasDescription (description : Option String) : Bool :=
  match description with
  | none => false
  | some d => d != "" && trim d != ""

/-- An optional text when it is truthy: present and not empty. -/
def truthyText (text : Option String) : Option String :=
  match text with
  | some t => if t != "" then some t else none
  | none => none

/-- Model of the `entryHTML` that `renderBlogGallery` builds for a file: header, the first
description part before the image, the image, the remaining parts after it. -/
def entryHTML (env : Env) (file : PhotoRecord) : List EntryPart :=
  let header := [EntryPart.header file.title file.photoDateTime (truthyText file.location)]
  let before :=
    if hasDescription file.description then
      let parts := descriptionParts (file.description.getD "")
      if parts.length > 0 then [EntryPart.description [trim (parts.getD 0 "")]] else []
    else []
  let image := [EntryPart.image (imageUrl env file.fileName) file.title]
  let after :=
    if hasDescription file.description then
      let parts := descriptionParts (file.description.getD "")
      if parts.length > 1 then [EntryPart.description ((parts.drop 1).map trim)] else []
    else []
  header ++ before ++ image ++ after

/-- The non-blank lines of a description in the words of the specification: the
newline-separated segments that are not blank, none when the description is missing. -/
def nonBlankLines (description : Option String) : List String :=
  match description with
  | none => []
  | some d => (splitNewline d).filter (fun line => trim line ≠ "")

/-- A platform for the samples. -/
def sampleEnv : Env := { origin := "http://localhost:5000", now := 1704470400000 }

/-- A record whose description has two segments. -/
def photoTwoSegments : PhotoRecord :=
  { photo1000 with description := some "  First look \nThen the details" }

/-! ## The page: form controls, status banners, requests -/

/-- The two kinds of status banner. -/
inductive StatusType where
  | success
  | error
deriving DecidableEq, Repr

/-- What `showStatus` writes into a banner. -/
structure StatusMessage where
  message : String
  type : StatusType
deriving DecidableEq, Repr

/-- The form controls and banners of the page that the script reads and writes. A banner
holds the last message `showStatus` wrote to it; the timer that empties it after four seconds
is not modelled, and neither are the previews of the staged files. -/
structure Page where
  photoTitle : String
  photoDate : String
  photoTime : String
  photoLocation : String
  photoDescription : String
  submitSingleUploadBtnDisabled : Bool
  submitBulkUploadBtnDisabled : Bool
  saveEditBtnDisabled : Bool
  statusMessage : Option StatusMessage
  singleUploadStatusMessage : Option StatusMessage
  bulkStatusMessage : Option StatusMessage
  editStatusMessage : Option StatusMessage
  editFormFieldsShown : Bool
  editImagePreviewSrc : String
  editPhotoTitle : String
  editPhotoDate : String
  editPhotoTime : String
  editPhotoLocation : String
  editPhotoDescription : String
deriving DecidableEq, Repr

/-- The body of a request. -/
inductive RequestBody where
  | empty
  | uploadSingle (image : File) (name date time location description : String)
  | bulkUpload (images : List File)
  | updateMetadata (id title photoDateTime location description : String) (rotation : Nat)
  | deletePhoto (id : String)
deriving DecidableEq, Repr

/-- A call of `fetch`. -/
structure Request where
  method : String
  url : String
  body : RequestBody
deriving DecidableEq, Repr

/-- The platform a handler runs on: origin and clock, the real current date, and the
collation of `localeCompare`. -/
structure Platform where
  env : Env
  today : CivilDate
  localeCompare : String → String → Int

/-- The state of script and page after a handler, and the requests it issued, in order. -/
structure Run where
  state : AppState
  page : Page
  requests : List Request

/-- The list request of `loadPhotosFromServer`: `GET origin/api/photos?_=timestamp`. -/
def photosRequest (env : Env) : Request :=
  { method := "GET", url := env.origin ++ "/api/photos?_=" ++ natToString env.now,
    body := RequestBody.empty }

/-- The metadata request of `updateJsonViewer`: `GET origin/api/metadata?_=timestamp`. -/
def jsonViewerRequest (env : Env) : Request :=
  { method := "GET", url := env.origin ++ "/api/metadata?_=" ++ natToString env.now,
    body := RequestBody.empty }

/-- The metadata request of `downloadJSON`: `GET origin/api/metadata`. -/
def downloadMetadataRequest (env : Env) : Request :=
  { method := "GET", url := env.origin ++ "/api/metadata", body := RequestBody.empty }

/-- Whether `needle` occurs in `text` at its start. -/
def startsWithChars : List Char → List Char → Bool
  | [], _ => true
  | _ :: _, [] => false
  | n :: needle, t :: text => n == t && startsWithChars needle text

/-- Whether `needle` occurs somewhere in `text`. -/
def includesChars (needle : List Char) : List Char → Bool
  | [] => startsWithChars needle []
  | t :: text => startsWithChars needle (t :: text) || includesChars needle text

/-- Whether an address carries the cache-busting parameter `?_=`. -/
def hasCacheBuster (url : String) : Bool := includesChars "?_=".data url.data

/-- The filter of the drop and bulk handlers: `file.type.startsWith('image/')`. -/
def isImage (file : File) : Bool := startsWithChars "image/".data file.type.data

/-- Model of `showStatus` for the banner `statusMessage`. -/
def showStatus (message : String) (type : StatusType) (page : Page) : Page :=
  { page with statusMessage := some { message := message, type := type } }

/-- Model of `showStatus` for the banner `singleUploadStatusMessage`. -/
def showSingleUploadStatus (message : String) (type : StatusType) (page : Page) : Page :=
  { page with singleUploadStatusMessage := some { message := message, type := type } }

/-- Model of `showStatus` for the banner `bulkStatusMessage`. -/
def showBulkStatus (message : String) (type : StatusType) (page : Page) : Page :=
  { page with bulkStatusMessage := some { message := message, type := type } }

/-- Model of `showStatus` for the banner `editStatusMessage`. -/
def showEditStatus (message : String) (type : StatusType) (page : Page) : Page :=
  { page with editStatusMessage := some { message := message, type := type } }

/-- What `renderEditPhotoSelection` and the idle branches of `onPhotoSelectedForEdit` do to
the edit form: fields and preview hidden, preview source emptied. -/
def hideEditForm (page : Page) : Page :=
  { page with editFormFieldsShown := false, editImagePreviewSrc := "" }

/-- The redraw after a load: `renderCalendar`, `renderBlogGallery`, `renderGridGallery`,
`updateJsonViewer` (its request is returned) and `renderEditPhotoSelection`. The children
written are those the renderers give for the states they run in. -/
def redrawAfterLoad (pf : Platform) (s : AppState) (page : Page) : Run :=
  let c := renderCalendar pf.today s
  let b := renderBlogGallery c.1
  let g := renderGridGallery b.1
  let e := renderEditPhotoSelection pf.localeCompare g.1
  { state := e.1, page := hideEditForm page, requests := [jsonViewerRequest pf.env] }

/-- The redraw after a delete: `renderBlogGallery`, `renderGridGallery`, `renderCalendar`,
`updateJsonViewer` (its request is returned) and `renderEditPhotoSelection`. -/
def redrawAfterDelete (pf : Platform) (s : AppState) (page : Page) : Run :=
  let b := renderBlogGallery s
  let g := renderGridGallery b.1
  let c := renderCalendar pf.today g.1
  let e := renderEditPhotoSelection pf.localeCompare c.1
  { state := e.1, page := hideEditForm page, requests := [jsonViewerRequest pf.env] }

/-- The sequence `await loadPhotosFromServer()` and redraw that follows every successful
upload and save. -/
def reloadAndRedraw (pf : Platform) (reload : ListResponse) (s : AppState) (page : Page) : Run :=
  let r := redrawAfterLoad pf (loadPhotosFromServer reload s) page
  { r with requests := photosRequest pf.env :: r.requests }

/-! ## Single upload -/

/-- Model of `checkSingleUploadFormValidity`. -/
def checkSingleUploadFormValidity (s : AppState) (page : Page) : Page :=
  if trim page.photoTitle != "" && trim page.photoDate != "" && trim page.photoTime != ""
      && decide (s.filesToUpload.length > 0)
  then { page with submitSingleUploadBtnDisabled := false }
  else { page with submitSingleUploadBtnDisabled := true }

/-- Model of `handleFileSelect` for the files of the picker. -/
def handleFileSelect (files : List File) (s : AppState) (page : Page) : AppState × Page :=
  let s1 := { s with filesToUpload := files }
  (s1, checkSingleUploadFormValidity s1 page)

/-- Model of `handleDrop` for the dropped files: only images are staged. -/
def handleDrop (files : List File) (s : AppState) (page : Page) : AppState × Page :=
  handleFileSelect (files.filter isImage) { s with filesToUpload := files.filter isImage } page

/-- Outcome of one `fetch` of `/api/upload_single` inside the loop: a success response, an
error response whose body parses as JSON, an error response whose body does not (so that
`response.json()` throws inside the `try`), or a `fetch` that throws. -/
inductive UploadOutcome where
  | ok
  | errorJson
  | errorNoJson
  | networkError
deriving DecidableEq, Repr

/-- The request of the loop of `uploadSinglePhoto` for one file. -/
def uploadSingleRequest (env : Env) (page : Page) (file : File) : Request :=
  { method := "POST", url := env.origin ++ "/api/upload_single",
    body := RequestBody.uploadSingle file page.photoTitle page.photoDate page.photoTime
      page.photoLocation page.photoDescription }

/-- The counting of the loop of `uploadSinglePhoto` from file number `i` on, `outcome i` being
the outcome of the request for file number `i`: `(successCount, errorCount)`. An error
response counts in the `else` branch and, when its body does not parse, once more in the
`catch`. -/
def uploadLoop (outcome : Nat → UploadOutcome) : Nat → List File → Nat × Nat → Nat × Nat
  | _, [], counts => counts
  | i, _ :: rest, counts =>
    match outcome i with
    | UploadOutcome.ok => uploadLoop outcome (i + 1) rest (counts.1 + 1, counts.2)
    | UploadOutcome.errorJson => uploadLoop outcome (i + 1) rest (counts.1, counts.2 + 1)
    | UploadOutcome.errorNoJson => uploadLoop outcome (i + 1) rest (counts.1, counts.2 + 1 + 1)
    | UploadOutcome.networkError => uploadLoop outcome (i + 1) rest (counts.1, counts.2 + 1)

/-- What `uploadSinglePhoto` leaves: state, page, requests, and its two counters (zero when
it returns before declaring them). -/
structure UploadRun where
  state : AppState
  page : Page
  requests : List Request
  successCount : Nat
  errorCount : Nat

/-- The text of the final error banner of `uploadSinglePhoto`. -/
def uploadFailureMessage (successCount errorCount : Nat) : String :=
  natToString errorCount ++ " file(s) failed to upload. "
    ++ (if successCount > 0 then natToString successCount ++ " uploaded successfully." else "")

/-- Model of `uploadSinglePhoto`, the outcome of the request for file number `i` being
`outcome i` and the outcome of the reload being `reload`. -/
def uploadSinglePhoto (pf : Platform) (outcome : Nat → UploadOutcome) (reload : ListResponse)
    (s : AppState) (page : Page) : UploadRun :=
  if s.filesToUpload.length = 0 then
    { state := s
      page := showSingleUploadStatus "No image files selected for upload." StatusType.error page
      requests := [], successCount := 0, errorCount := 0 }
  else if trim page.photoTitle = "" ∨ page.photoDate = "" ∨ page.photoTime = "" then
    { state := s
      page := showSingleUploadStatus "Please fill in Photo Title, Date, and Time."
        StatusType.error page
      requests := [], successCount := 0, errorCount := 0 }
  else
    let uploads := s.filesToUpload.map (uploadSingleRequest pf.env page)
    let counts := uploadLoop outcome 0 s.filesToUpload (0, 0)
    let page1 := { page with submitSingleUploadBtnDisabled := false }
    let afterSuccess : Run :=
      if counts.1 > 0 then
        let page2 := showSingleUploadStatus
          ("Successfully uploaded " ++ natToString counts.1 ++ " photo(s)!")
          StatusType.success page1
        let page3 := { page2 with photoTitle := "", photoLocation := "", photoDescription := "" }
        let s1 := { s with filesToUpload := [] }
        reloadAndRedraw pf reload s1 (checkSingleUploadFormValidity s1 page3)
      else { state := s, page := page1, requests := [] }
    let pageEnd :=
      if counts.2 > 0 then
        showSingleUploadStatus (uploadFailureMessage counts.1 counts.2) StatusType.error
          afterSuccess.page
      else afterSuccess.page
    { state := afterSuccess.state, page := pageEnd
      requests := uploads ++ afterSuccess.requests
      successCount := counts.1, errorCount := counts.2 }

/-! ## Bulk upload -/

/-- Model of `handleBulkFileSelect` for the files of the picker: images are staged and the
submit button is enabled exactly when there is one. -/
def handleBulkFileSelect (files : List File) (s : AppState) (page : Page) : AppState × Page :=
  let s1 := { s with filesToBulkUpload := files.filter isImage }
  if s1.filesToBulkUpload.length > 0 then
    (s1, { page with submitBulkUploadBtnDisabled := false })
  else (s1, { page with submitBulkUploadBtnDisabled := true })

/-- Model of `handleBulkDrop` for the dropped files. -/
def handleBulkDrop (files : List File) (s : AppState) (page : Page) : AppState × Page :=
  handleBulkFileSelect (files.filter isImage)
    { s with filesToBulkUpload := files.filter isImage } page

/-- Outcome of the `fetch` of `/api/bulk_upload`: a success response with its `message` (none
when the body does not parse), an error response with its `error` text (none when the body
does not parse), or a `fetch` that throws. -/
inductive BulkOutcome where
  | ok (message : Option String)
  | error (error : Option String)
  | networkError
deriving DecidableEq, Repr

/-- Model of `bulkUploadPhotos`. The `finally` block runs after each branch of the `try`. -/
def bulkUploadPhotos (pf : Platform) (outcome : BulkOutcome) (reload : ListResponse)
    (s : AppState) (page : Page) : Run :=
  if s.filesToBulkUpload.length = 0 then
    { state := s
      page := showBulkStatus "No image files selected for bulk upload." StatusType.error page
      requests := [] }
  else
    let page1 := { page with submitBulkUploadBtnDisabled := true }
    let request : Request :=
      { method := "POST", url := pf.env.origin ++ "/api/bulk_upload",
        body := RequestBody.bulkUpload s.filesToBulkUpload }
    let networkFailure : Run :=
      { state := s
        page := showBulkStatus "Network error during bulk upload." StatusType.error page1
        requests := [] }
    let tried : Run :=
      match outcome with
      | BulkOutcome.ok (some message) =>
        let page2 := showBulkStatus message StatusType.success page1
        let s1 := { s with filesToBulkUpload := [] }
        reloadAndRedraw pf reload s1 { page2 with submitBulkUploadBtnDisabled := true }
      | BulkOutcome.ok none => networkFailure
      | BulkOutcome.error (some error) =>
        { state := s
          page := showBulkStatus ("Error during bulk upload: " ++ error) StatusType.error page1
          requests := [] }
      | BulkOutcome.error none => networkFailure
      | BulkOutcome.networkError => networkFailure
    { state := tried.state
      page := { tried.page with submitBulkUploadBtnDisabled := false }
      requests := request :: tried.requests }

/-! ## Deleting -/

/-- Outcome of a `fetch` with `POST` that answers with a status only: a success response, an
error response with its `error` text, an error response whose body does not parse (with the
message of the error thrown), or a `fetch` that throws (with its message). -/
inductive PostOutcome where
  | ok
  | errorJson (error : String)
  | errorNoJson (message : String)
  | networkError (message : String)
deriving DecidableEq, Repr

/-- Model of `deleteSinglePhoto`, `confirmDelete` being the answer to the confirmation. -/
def deleteSinglePhoto (pf : Platform) (confirmDelete : Bool) (outcome : PostOutcome)
    (photoId : String) (s : AppState) (page : Page) : Run :=
  if confirmDelete = false then { state := s, page := page, requests := [] }
  else
    let request : Request :=
      { method := "POST", url := pf.env.origin ++ "/api/delete_photo",
        body := RequestBody.deletePhoto photoId }
    match outcome with
    | PostOutcome.ok =>
      let r := redrawAfterDelete pf (removeFromLocalState photoId s) page
      { state := r.state
        page := showStatus "Photo deleted successfully!" StatusType.success r.page
        requests := request :: r.requests }
    | PostOutcome.errorJson error =>
      { state := s
        page := showStatus ("Error deleting photo: " ++ error) StatusType.error page
        requests := [request] }
    | PostOutcome.errorNoJson message =>
      { state := s
        page := showStatus ("Error deleting photo: " ++ message) StatusType.error page
        requests := [request] }
    | PostOutcome.networkError message =>
      { state := s
        page := showStatus ("Error deleting photo: " ++ message) StatusType.error page
        requests := [request] }

/-- Model of `deleteAllPhotos`, `confirmDelete` being the answer to the confirmation. -/
def deleteAllPhotos (pf : Platform) (confirmDelete : Bool) (outcome : PostOutcome)
    (s : AppState) (page : Page) : Run :=
  if confirmDelete = false then { state := s, page := page, requests := [] }
  else
    let totalPhotos := s.allPhotosFlat.length
    let request : Request :=
      { method := "POST", url := pf.env.origin ++ "/api/delete_all_photos",
        body := RequestBody.empty }
    match outcome with
    | PostOutcome.ok =>
      let r := redrawAfterDelete pf (clearLocalState s) page
      { state := r.state
        page := showStatus ("Successfully deleted " ++ natToString totalPhotos ++ " photos!")
          StatusType.success r.page
        requests := request :: r.requests }
    | PostOutcome.errorJson error =>
      { state := s
        page := showStatus ("Error deleting photos: " ++ error) StatusType.error page
        requests := [request] }
    | PostOutcome.errorNoJson message =>
      { state := s
        page := showStatus ("Error deleting photos: " ++ message) StatusType.error page
        requests := [request] }
    | PostOutcome.networkError message =>
      { state := s
        page := showStatus ("Error deleting photos: " ++ message) StatusType.error page
        requests := [request] }

/-! ## Editing -/

/-- The hours and minutes of a time value, `HH:MM`, as `toTimeString().slice(0, 5)` gives
them for a clock on UTC. -/
def timeOfDay (t : Int) : String :=
  String.mk (pad2 ((t % msPerDay) / 3600000).toNat ++ ':' :: pad2 ((t % 3600000) / 60000).toNat)

/-- Truthiness of an id held in a variable: not `null` and not empty. -/
def truthyId (id : Option String) : Bool :=
  match id with
  | some i => i != ""
  | none => false

/-- Model of `onPhotoSelectedForEdit` for the value of the drop-down. -/
def onPhotoSelectedForEdit (env : Env) (photoId : String) (s : AppState) (page : Page) :
    AppState × Page :=
  if photoId = "" then
    ({ s with currentlyEditingPhotoId := none, currentEditPhotoRotation := 0 },
     hideEditForm page)
  else
    match s.allPhotosFlat.find? (fun photo => photo.id == photoId) with
    | some selectedPhoto =>
      ({ s with currentlyEditingPhotoId := some photoId, currentEditPhotoRotation := 0 },
       { page with
          editPhotoTitle := selectedPhoto.title
          editPhotoDate := dateKey selectedPhoto.photoDateTime
          editPhotoTime := timeOfDay selectedPhoto.photoDateTime
          editPhotoLocation := selectedPhoto.location.getD ""
          editPhotoDescription := selectedPhoto.description.getD ""
          editImagePreviewSrc := imageUrl env selectedPhoto.fileName
          editFormFieldsShown := true })
    | none =>
      ({ s with currentlyEditingPhotoId := none, currentEditPhotoRotation := 0 },
       showEditStatus "Selected photo not found." StatusType.error (hideEditForm page))

/-- Model of `saveEditedPhoto`. -/
def saveEditedPhoto (pf : Platform) (outcome : PostOutcome) (reload : ListResponse)
    (s : AppState) (page : Page) : Run :=
  if truthyId s.currentlyEditingPhotoId = false then
    { state := s
      page := showEditStatus "No photo selected for editing." StatusType.error page
      requests := [] }
  else if trim page.editPhotoTitle = "" ∨ page.editPhotoDate = "" ∨ page.editPhotoTime = "" then
    { state := s
      page := showEditStatus "Please fill in Photo Title, Date, and Time." StatusType.error page
      requests := [] }
  else
    let page1 := { page with saveEditBtnDisabled := true }
    let request : Request :=
      { method := "POST", url := pf.env.origin ++ "/api/update_metadata",
        body := RequestBody.updateMetadata (s.currentlyEditingPhotoId.getD "")
          page.editPhotoTitle (page.editPhotoDate ++ "T" ++ page.editPhotoTime ++ ":00")
          page.editPhotoLocation page.editPhotoDescription s.currentEditPhotoRotation }
    let tried : Run :=
      match outcome with
      | PostOutcome.ok =>
        reloadAndRedraw pf reload s
          (showEditStatus "Photo metadata updated successfully!" StatusType.success page1)
      | PostOutcome.errorJson error =>
        { state := s
          page := showEditStatus ("Error updating photo: " ++ error) StatusType.error page1
          requests := [] }
      | PostOutcome.errorNoJson message =>
        { state := s
          page := showEditStatus ("Error updating photo: " ++ message) StatusType.error page1
          requests := [] }
      | PostOutcome.networkError message =>
        { state := s
          page := showEditStatus ("Error updating photo: " ++ message) StatusType.error page1
          requests := [] }
    { state := tried.state
      page := { tried.page with saveEditBtnDisabled := false }
      requests := request :: tried.requests }

/-! ## The raw metadata -/

/-- Outcome of a metadata request: the parsed dictionary keyed by id, or a failure (error
response, network error, unparsable body). -/
inductive MetadataOutcome where
  | ok (rawMetadata : List (String × PhotoRecord))
  | failed
deriving DecidableEq, Repr

/-- The document shown by the viewer and exported by the download. -/
structure FormattedData where
  totalPhotos : Nat
  photos : List (String × PhotoRecord)
deriving DecidableEq, Repr

/-- Model of `updateJsonViewer`: its request and what the viewer shows, the data or the text
`Error loading data.` (none). -/
def updateJsonViewer (env : Env) (outcome : MetadataOutcome) : Request × Option FormattedData :=
  (jsonViewerRequest env,
   match outcome with
   | MetadataOutcome.ok rawMetadata =>
     some { totalPhotos := rawMetadata.length, photos := rawMetadata }
   | MetadataOutcome.failed => none)

/-- Model of `downloadJSON`: the run and the document offered for download, if any. -/
def downloadJSON (env : Env) (list : ListResponse) (outcome : MetadataOutcome)
    (s : AppState) (page : Page) : Run × Option FormattedData :=
  let s1 := loadPhotosFromServer list s
  let requests := [photosRequest env, downloadMetadataRequest env]
  match outcome with
  | MetadataOutcome.ok rawMetadata =>
    ({ state := s1
       page := showStatus "JSON data downloaded successfully!" StatusType.success page
       requests := requests },
     some { totalPhotos := rawMetadata.length, photos := rawMetadata })
  | MetadataOutcome.failed =>
    ({ state := s1
       page := showStatus "Error downloading JSON data." StatusType.error page
       requests := requests },
     none)

/-- The addresses of the read requests of the client for a file: the photo list, the raw
metadata of the viewer, the raw metadata of the download, and the image of the file (blog
entry, grid tile and edit preview build it alike). -/
def readUrls (env : Env) (file : PhotoRecord) : List String :=
  [(photosRequest env).url, (jsonViewerRequest env).url, (downloadMetadataRequest env).url,
   imageUrl env file.fileName]

/-! ## Month navigation -/

/-- Model of `Date.prototype.setMonth` on the calendar fields: the day of month is kept and the
date is normalised, so that a day the month does not have runs over into the next month. -/
def setMonth (date : CivilDate) (month : Int) : CivilDate :=
  let year := date.year + month / 12
  let monthInYear := (month % 12).toNat
  civilFromDay (dayFromYear year + monthStart (isLeapYear year) monthInYear + date.date - 1)

/-- Model of `previousMonth`. -/
def previousMonth (today : CivilDate) (s : AppState) : AppState × CalendarView :=
  renderCalendar today { s with currentDate := setMonth s.currentDate (s.currentDate.month - 1) }

/-- Model of `nextMonth`. -/
def nextMonth (today : CivilDate) (s : AppState) : AppState × CalendarView :=
  renderCalendar today { s with currentDate := setMonth s.currentDate (s.currentDate.month + 1) }

/-! ## Sample page and platform -/

/-- A page with an empty form and no banner. -/
def blankPage : Page :=
  { photoTitle := "", photoDate := "", photoTime := "", photoLocation := ""
    photoDescription := "", submitSingleUploadBtnDisabled := true
    submitBulkUploadBtnDisabled := true, saveEditBtnDisabled := false
    statusMessage := none, singleUploadStatusMessage := none, bulkStatusMessage := none
    editStatusMessage := none, editFormFieldsShown := false, editImagePreviewSrc := ""
    editPhotoTitle := "", editPhotoDate := "", editPhotoTime := "", editPhotoLocation := ""
    editPhotoDescription := "" }

/-- The single-upload form filled in. -/
def filledPage : Page :=
  { blankPage with photoTitle := "Harbour", photoDate := "2024-01-05", photoTime := "10:00" }

/-- A platform for the samples; titles compare by length. -/
def samplePlatform : Platform :=
  { env := sampleEnv, today := ⟨2024, 0, 5⟩
    localeCompare := fun a b => (a.length : Int) - b.length }

/-- Three staged image files. -/
def threeFiles : List File :=
  [⟨"a.jpg", "image/jpeg"⟩, ⟨"b.jpg", "image/jpeg"⟩, ⟨"c.png", "image/png"⟩]

/-- The sample state with three files staged for single upload. -/
def threeStaged : AppState := { sampleState with filesToUpload := threeFiles }

/-- The sample state with one file staged for single upload. -/
def oneStaged : AppState := { sampleState with filesToUpload := [⟨"a.jpg", "image/jpeg"⟩] }

/-- The second of the requests fails with a JSON error body, the others succeed. -/
def secondFails (i : Nat) : UploadOutcome :=
  if i = 1 then UploadOutcome.errorJson else UploadOutcome.ok

/-- The sample state with one file staged for bulk upload. -/
def oneBulkStaged : AppState := { sampleState with filesToBulkUpload := [⟨"a.jpg", "image/jpeg"⟩] }

/-- The sample state with the calendar on 31 January 2024. -/
def january31 : AppState := { sampleState with currentDate := ⟨2024, 0, 31⟩ }

/-- The sample state with the calendar on 31 March 2024. -/
def march31 : AppState := { sampleState with currentDate := ⟨2024, 2, 31⟩ }

/-! ## Rotation in the edit form -/

/-- Model of `rotateImage`: without a photo open in the edit form only a status is shown;
otherwise the pending rotation grows by a quarter turn, modulo 360. The `transform` of the
preview shows the value of the variable and is not kept separately. -/
def rotateImage (s : AppState) (page : Page) : AppState × Page :=
  if truthyId s.currentlyEditingPhotoId = false then
    (s, showEditStatus "Please select a photo to rotate." StatusType.error page)
  else
    ({ s with currentEditPhotoRotation := (s.currentEditPhotoRotation + 90) % 360 }, page)

/-- The states the script reaches from its initial variables by loading, by
`renderEditPhotoSelection`, `onPhotoSelectedForEdit` and `rotateImage`, and by
`saveEditedPhoto`. -/
inductive EditReachable : AppState → Prop where
  | init (now : CivilDate) : EditReachable (initialState now)
  | load (response : ListResponse) (s : AppState) :
      EditReachable s → EditReachable (loadPhotosFromServer response s)
  | renderEdit (localeCompare : String → String → Int) (s : AppState) :
      EditReachable s → EditReachable (renderEditPhotoSelection localeCompare s).1
  | select (env : Env) (photoId : String) (s : AppState) (page : Page) :
      EditReachable s → EditReachable (onPhotoSelectedForEdit env photoId s page).1
  | rotate (s : AppState) (page : Page) :
      EditReachable s → EditReachable (rotateImage s page).1
  | save (pf : Platform) (outcome : PostOutcome) (reload : ListResponse) (s : AppState)
      (page : Page) :
      EditReachable s → EditReachable (saveEditedPhoto pf outcome reload s page).state

/-- The sample state with the photo `p1` open in the edit form. -/
def sampleEditing : AppState := (onPhotoSelectedForEdit sampleEnv "p1" sampleState blankPage).1

/-! ## Date-time text without zone designator -/

/-- The time value of the UTC date and time `year-month-day` `hour:minute` (month 0-based):
ECMAScript `MakeDate(MakeDay(year, month, day), MakeTime(hour, minute, 0, 0))`. -/
def utcTimeValue (year : Int) (month day hour minute : Nat) : Int :=
  (dayFromYear year + monthStart (isLeapYear year) month + day - 1) * msPerDay
    + hour * 3600000 + minute * 60000

/-- Model of `new Date(text)` for a date-time text without zone designator, such as
`2024-01-05T10:00:00`, in a browser whose zone is `offsetMinutes` east of UTC: the text is read
as local time. -/
def localTimeValue (offsetMinutes : Int) (year : Int) (month day hour minute : Nat) : Int :=
  utcTimeValue year month day hour minute - offsetMinutes * 60000

/-- The local calendar day of a time value in a zone `offsetMinutes` east of UTC, the day that
the text of a date heading (`toLocaleDateString`) names, written as a date key. -/
def localDateKey (offsetMinutes : Int) (t : Int) : String := dateKey (t + offsetMinutes * 60000)

/-- The record of text `2024-01-05T10:00:00` as a browser on UTC+13 (Pacific/Auckland in
January) parses it. -/
def photo1000Auckland : PhotoRecord :=
  { photo1000 with photoDateTime := localTimeValue 780 2024 0 5 10 0 }

/-- The record of text `2024-01-05T15:00:00` as a browser on UTC+13 parses it. -/
def photo1500Auckland : PhotoRecord :=
  { photo1500 with photoDateTime := localTimeValue 780 2024 0 5 15 0 }

/-- The state of that browser after loading the two records, which the server lists under the
day of their text. -/
def aucklandState : AppState :=
  loadPhotosFromServer
    (ListResponse.ok (some [("2024-01-05", [photo1000Auckland, photo1500Auckland])]))
    (initialState ⟨2024, 0, 5⟩)

/-! ## Reading decimal text back (used to show that date keys determine the day) -/

/-- The value of a decimal digit character. -/
def digitValue (c : Char) : Nat := c.toNat - 48

/-- The number a list of decimal digits denotes. -/
def decodeDecimal (cs : List Char) : Nat := cs.foldl (fun acc c => acc * 10 + digitValue c) 0

/-! ## Facts about date keys -/

theorem digitValue_digitChar {n : Nat} (h : n < 10) : digitValue (Nat.digitChar n) = n := by
  interval_cases n <;> rfl

theorem digitChar_ne_sign {n : Nat} (h : n < 10) :
    Nat.digitChar n ≠ '-' ∧ Nat.digitChar n ≠ '+' := by
  interval_cases n <;> decide

theorem decodeDecimal_append_singleton (cs : List Char) (c : Char) :
    decodeDecimal (cs ++ [c]) = decodeDecimal cs * 10 + digitValue c := by
  simp [decodeDecimal, List.foldl_append]

theorem decodeDecimal_decimalDigits :
    ∀ (fuel n : Nat), n < fuel → decodeDecimal (decimalDigits fuel n) = n := by
  intro fuel
  induction fuel with
  | zero => intro n h; omega
  | succ fuel ih =>
    intro n h
    unfold decimalDigits
    split
    · rename_i h10
      simp [decodeDecimal, digitValue_digitChar h10]
    · rename_i h10
      rw [decodeDecimal_append_singleton, ih (n / 10) (by omega),
        digitValue_digitChar (Nat.mod_lt n (by decide))]
      omega

theorem decimalDigits_ne_sign :
    ∀ (fuel n : Nat) (c : Char), c ∈ decimalDigits fuel n → c ≠ '-' ∧ c ≠ '+' := by
  intro fuel
  induction fuel with
  | zero => intro n c h; simp [decimalDigits] at h
  | succ fuel ih =>
    intro n c h
    unfold decimalDigits at h
    split at h
    · rename_i h10
      simp only [List.mem_singleton] at h
      subst h
      exact digitChar_ne_sign h10
    · simp only [List.mem_append, List.mem_singleton] at h
      rcases h with h | h
      · exact ih _ _ h
      · subst h
        exact digitChar_ne_sign (Nat.mod_lt n (by decide))

theorem decodeDecimal_replicate_zero (k : Nat) (cs : List Char) :
    decodeDecimal (List.replicate k '0' ++ cs) = decodeDecimal cs := by
  induction k with
  | zero => simp
  | succ k ih =>
    have h0 : digitValue '0' = 0 := rfl
    simp only [decodeDecimal, List.replicate_succ, List.cons_append, List.foldl_cons, h0] at ih ⊢
    exact ih

theorem decodeDecimal_toZeroPadded (n k : Nat) :
    decodeDecimal (toZeroPaddedDecimalString n k) = n := by
  unfold toZeroPaddedDecimalString
  simp only []
  rw [decodeDecimal_replicate_zero]
  exact decodeDecimal_decimalDigits _ _ (by omega)

theorem toZeroPadded_ne_sign (n k : Nat) (c : Char) (h : c ∈ toZeroPaddedDecimalString n k) :
    c ≠ '-' ∧ c ≠ '+' := by
  unfold toZeroPaddedDecimalString at h
  simp only [List.mem_append] at h
  rcases h with h | h
  · rw [List.mem_replicate] at h
    rw [h.2]
    decide
  · exact decimalDigits_ne_sign _ _ _ h

theorem toZeroPadded_ne_nil (n k : Nat) : toZeroPaddedDecimalString n k ≠ [] := by
  intro h
  have := congrArg List.length h
  unfold toZeroPaddedDecimalString at this
  simp [decimalDigits] at this
  split at this <;> simp at this

theorem toZeroPadded_head_ne (n k : Nat) (c : Char) (cs : List Char)
    (hc : c = '-' ∨ c = '+') : toZeroPaddedDecimalString n k ≠ c :: cs := by
  intro h
  have hm : c ∈ toZeroPaddedDecimalString n k := by rw [h]; exact List.mem_cons_self _ _
  have := toZeroPadded_ne_sign n k c hm
  rcases hc with hc | hc
  · exact this.1 hc
  · exact this.2 hc

theorem isoYear_injective {y z : Int} (h : isoYear y = isoYear z) : y = z := by
  have key : ∀ {a b k : Nat},
      toZeroPaddedDecimalString a k = toZeroPaddedDecimalString b k → a = b := by
    intro a b k hab
    have := congrArg decodeDecimal hab
    rwa [decodeDecimal_toZeroPadded, decodeDecimal_toZeroPadded] at this
  unfold isoYear at h
  by_cases hy : 0 ≤ y ∧ y ≤ 9999 <;> by_cases hz : 0 ≤ z ∧ z ≤ 9999
  · rw [if_pos hy, if_pos hz] at h
    have := key h
    omega
  · rw [if_pos hy, if_neg hz] at h
    split at h
    · exact absurd h (toZeroPadded_head_ne _ _ _ _ (Or.inl rfl))
    · exact absurd h (toZeroPadded_head_ne _ _ _ _ (Or.inr rfl))
  · rw [if_neg hy, if_pos hz] at h
    split at h
    · exact absurd h.symm (toZeroPadded_head_ne _ _ _ _ (Or.inl rfl))
    · exact absurd h.symm (toZeroPadded_head_ne _ _ _ _ (Or.inr rfl))
  · rw [if_neg hy, if_neg hz] at h
    by_cases hy0 : y < 0 <;> by_cases hz0 : z < 0
    · rw [if_pos hy0, if_pos hz0] at h
      have := key (List.cons_injective h)
      omega
    · rw [if_pos hy0, if_neg hz0] at h
      exact absurd (List.head_eq_of_cons_eq h) (by decide)
    · rw [if_neg hy0, if_pos hz0] at h
      exact absurd (List.head_eq_of_cons_eq h) (by decide)
    · rw [if_neg hy0, if_neg hz0] at h
      have := key (List.cons_injective h)
      omega

theorem pad2_injective {m n : Nat} (hm : m < 100) (hn : n < 100) (h : pad2 m = pad2 n) :
    m = n := by
  unfold pad2 at h
  have h1 : Nat.digitChar (m / 10) = Nat.digitChar (n / 10) := by
    have := List.head_eq_of_cons_eq h
    exact this
  have h2 : Nat.digitChar (m % 10) = Nat.digitChar (n % 10) := by
    have := List.head_eq_of_cons_eq (List.tail_eq_of_cons_eq h)
    exact this
  have e1 := congrArg digitValue h1
  have e2 := congrArg digitValue h2
  rw [digitValue_digitChar (by omega), digitValue_digitChar (by omega)] at e1
  rw [digitValue_digitChar (Nat.mod_lt _ (by decide)),
    digitValue_digitChar (Nat.mod_lt _ (by decide))] at e2
  omega

/-- The cycle counts behind `yearAndDayWithinYear`: they determine the year, and with the day
within the year they determine the day number. -/
theorem yearAndDayWithinYear_spec (day : Int) :
    ∃ a b c d : Int, 0 ≤ b ∧ b ≤ 3 ∧ 0 ≤ c ∧ c ≤ 24 ∧ 0 ≤ d ∧ d ≤ 3 ∧
      (yearAndDayWithinYear day).1 = 400 * a + 100 * b + 4 * c + d + 1 ∧
      day + 719162 = 146097 * a + 36524 * b + 1461 * c + 365 * d
        + ((yearAndDayWithinYear day).2 : Int) ∧
      (yearAndDayWithinYear day).2 ≤ 365 := by
  simp only [yearAndDayWithinYear]
  refine ⟨(day + 719162) / 146097, min ((day + 719162) % 146097 / 36524) 3,
    ((day + 719162) % 146097 - min ((day + 719162) % 146097 / 36524) 3 * 36524) / 1461,
    min (((day + 719162) % 146097 - min ((day + 719162) % 146097 / 36524) 3 * 36524) % 1461 / 365) 3,
    ?_, ?_, ?_, ?_, ?_, ?_, ?_, ?_, ?_⟩ <;> omega

theorem yearAndDayWithinYear_injective {d e : Int}
    (h : yearAndDayWithinYear d = yearAndDayWithinYear e) : d = e := by
  obtain ⟨a, b, c, n, hb0, hb3, hc0, hc24, hn0, hn3, hy, hd, _⟩ := yearAndDayWithinYear_spec d
  obtain ⟨a', b', c', n', hb0', hb3', hc0', hc24', hn0', hn3', hy', hd', _⟩ :=
    yearAndDayWithinYear_spec e
  rw [h] at hy hd
  have e1 : n = n' := by omega
  have e2 : c = c' := by omega
  have e3 : b = b' := by omega
  omega

theorem ite_ind {α : Type} (P : α → Prop) (c : Prop) [Decidable c] (a b : α)
    (ha : c → P a) (hb : ¬c → P b) : P (if c then a else b) := by
  split
  · exact ha ‹_›
  · exact hb ‹_›

/-- The month found for a day within the year is one of the twelve, starts on or before that
day, and the day of month stays below 100. -/
theorem monthStart_bounds (leap : Bool) (doy : Nat) :
    monthFromDayWithinYear leap doy ≤ 11 ∧
    monthStart leap (monthFromDayWithinYear leap doy) ≤ doy ∧
    (doy ≤ 365 → doy - monthStart leap (monthFromDayWithinYear leap doy) + 1 ≤ 32) := by
  cases leap
  · simp only [monthFromDayWithinYear, Bool.false_eq_true, if_false, Nat.add_zero]
    repeat' (apply ite_ind (fun m => m ≤ 11 ∧ monthStart false m ≤ doy ∧
      (doy ≤ 365 → doy - monthStart false m + 1 ≤ 32)) <;> intro _)
    all_goals (simp only [monthStart, if_false, Bool.false_eq_true, Nat.add_zero]; omega)
  · simp only [monthFromDayWithinYear, if_true]
    repeat' (apply ite_ind (fun m => m ≤ 11 ∧ monthStart true m ≤ doy ∧
      (doy ≤ 365 → doy - monthStart true m + 1 ≤ 32)) <;> intro _)
    all_goals (simp only [monthStart, if_true]; omega)

theorem monthStart_le (leap : Bool) (doy : Nat) :
    monthStart leap (monthFromDayWithinYear leap doy) ≤ doy :=
  (monthStart_bounds leap doy).2.1

theorem monthFromDayWithinYear_le (leap : Bool) (doy : Nat) :
    monthFromDayWithinYear leap doy ≤ 11 :=
  (monthStart_bounds leap doy).1

theorem date_le (leap : Bool) (doy : Nat) (h : doy ≤ 365) :
    doy - monthStart leap (monthFromDayWithinYear leap doy) + 1 ≤ 32 :=
  (monthStart_bounds leap doy).2.2 h

theorem civilFromDay_injective {d e : Int} (h : civilFromDay d = civilFromDay e) : d = e := by
  unfold civilFromDay at h
  simp only [CivilDate.mk.injEq] at h
  obtain ⟨hy, hm, hdate⟩ := h
  apply yearAndDayWithinYear_injective
  have l1 := monthStart_le (isLeapYear (yearAndDayWithinYear d).1) (yearAndDayWithinYear d).2
  have l2 := monthStart_le (isLeapYear (yearAndDayWithinYear e).1) (yearAndDayWithinYear e).2
  rw [hy] at hm hdate l1
  rw [hm] at hdate l1
  apply Prod.ext hy
  omega

theorem isoDateChars_injective {d e : Int} (h : isoDateChars d = isoDateChars e) : d = e := by
  unfold isoDateChars at h
  simp only [] at h
  have hlen : ('-' :: pad2 ((civilFromDay d).month + 1) ++ '-' :: pad2 (civilFromDay d).date).length
      = ('-' :: pad2 ((civilFromDay e).month + 1) ++ '-' :: pad2 (civilFromDay e).date).length := by
    simp [pad2]
  obtain ⟨hyear, htail⟩ := List.append_inj' h hlen
  have hy := isoYear_injective hyear
  simp only [pad2, List.cons_append, List.nil_append, List.cons.injEq, true_and, and_true]
    at htail
  obtain ⟨m1, m2, t1, t2⟩ := htail
  have hmd : ∀ x : Int, (civilFromDay x).month ≤ 11 ∧ (civilFromDay x).date ≤ 32 := by
    intro x
    obtain ⟨_, _, _, _, _, _, _, _, _, _, _, _, hle⟩ := yearAndDayWithinYear_spec x
    exact ⟨monthFromDayWithinYear_le _ _, date_le _ _ hle⟩
  have hm : (civilFromDay d).month + 1 = (civilFromDay e).month + 1 :=
    pad2_injective (by have := (hmd d).1; omega) (by have := (hmd e).1; omega)
      (by simp [pad2, m1, m2])
  have hdt : (civilFromDay d).date = (civilFromDay e).date :=
    pad2_injective (by have := (hmd d).2; omega) (by have := (hmd e).2; omega)
      (by simp [pad2, t1, t2])
  apply civilFromDay_injective
  cases hd : civilFromDay d
  cases he : civilFromDay e
  rw [hd, he] at hy hm hdt
  simp only at hy hm hdt
  simp only [CivilDate.mk.injEq]
  exact ⟨hy, by omega, hdt⟩

/-- Equal date keys mean the same UTC day. -/
theorem dateKey_eq_iff (t u : Int) : dateKey t = dateKey u ↔ Day t = Day u := by
  constructor
  · intro h
    unfold dateKey at h
    exact isoDateChars_injective (congrArg String.data h)
  · intro h
    unfold dateKey
    rw [h]

theorem Day_mono {t u : Int} (h : t ≤ u) : Day t ≤ Day u := by
  unfold Day msPerDay
  omega


/-! ## Sorting and the records shown -/

theorem arraySort_perm {α : Type} (compareFn : α → α → Int) (xs : List α) :
    (arraySort compareFn xs).Perm xs :=
  List.perm_insertionSort _ xs

theorem arraySort_newestFirst_sorted (xs : List PhotoRecord) :
    (arraySort newestFirst xs).Sorted (fun a b => b.photoDateTime ≤ a.photoDateTime) := by
  have total : IsTotal PhotoRecord (fun a b => newestFirst a b ≤ 0) :=
    ⟨fun a b => by simp only [newestFirst]; omega⟩
  have trans : IsTrans PhotoRecord (fun a b => newestFirst a b ≤ 0) :=
    ⟨fun a b c hab hbc => by simp only [newestFirst] at *; omega⟩
  have h := List.sorted_insertionSort (fun a b : PhotoRecord => newestFirst a b ≤ 0) xs
  refine List.Pairwise.imp ?_ h
  intro a b hab
  simp only [newestFirst] at hab
  omega

theorem sortedFilesToShow_snd (s : AppState) :
    (sortedFilesToShow s).2 = arraySort newestFirst (filesSelected s) := by
  unfold sortedFilesToShow filesSelected
  cases selectedBucket s with
  | none => rfl
  | some db => rfl

/-- After a file is handled, `lastDate` is the key of that file. -/
theorem blogEntries_cons (lastDate : Option String) (file : PhotoRecord)
    (rest : List PhotoRecord) :
    blogEntries lastDate (file :: rest)
      = dateHeadingFor lastDate file
        ++ BlogNode.blogEntry file :: separatorAfter (dateKey file.photoDateTime) rest
        ++ blogEntries (some (dateKey file.photoDateTime)) rest := by
  rw [blogEntries]
  by_cases h : some (dateKey file.photoDateTime) = lastDate
  · simp [h]
  · simp [h]

theorem blogRecords_append (xs ys : List BlogNode) :
    blogRecords (xs ++ ys) = blogRecords xs ++ blogRecords ys := by
  simp [blogRecords, List.filterMap_append]

theorem blogRecords_dateHeadingFor (lastDate : Option String) (file : PhotoRecord) :
    blogRecords (dateHeadingFor lastDate file) = [] := by
  unfold dateHeadingFor
  split <;> rfl

theorem blogRecords_separatorAfter (key : String) (rest : List PhotoRecord) :
    blogRecords (separatorAfter key rest) = [] := by
  unfold separatorAfter
  split
  · rfl
  · split <;> rfl

theorem blogRecords_blogEntries (lastDate : Option String) (files : List PhotoRecord) :
    blogRecords (blogEntries lastDate files) = files := by
  induction files generalizing lastDate with
  | nil => rfl
  | cons file rest ih =>
    rw [blogEntries_cons, blogRecords_append, blogRecords_append, blogRecords_dateHeadingFor,
      ih, List.nil_append]
    have : blogRecords (BlogNode.blogEntry file :: separatorAfter (dateKey file.photoDateTime) rest)
        = file :: blogRecords (separatorAfter (dateKey file.photoDateTime) rest) := rfl
    rw [this, blogRecords_separatorAfter]
    rfl

theorem gridRecords_map (files : List PhotoRecord) :
    gridRecords (files.map GridNode.galleryItem) = files := by
  induction files with
  | nil => rfl
  | cons file rest ih =>
    unfold gridRecords at ih ⊢
    simp only [List.map_cons, List.filterMap_cons, ih]

theorem blogRecords_render (s : AppState) :
    blogRecords (renderBlogGallery s).2 = arraySort newestFirst (filesSelected s) := by
  unfold renderBlogGallery
  simp only [sortedFilesToShow_snd]
  split
  · rename_i h
    rw [List.length_eq_zero.mp h]
    rfl
  · exact blogRecords_blogEntries _ _

theorem gridRecords_render (s : AppState) :
    gridRecords (renderGridGallery s).2 = arraySort newestFirst (filesSelected s) := by
  unfold renderGridGallery
  simp only [sortedFilesToShow_snd]
  split
  · rename_i h
    rw [List.length_eq_zero.mp h]
    rfl
  · exact gridRecords_map _

/-- C1: for every index and every date filter, the records that `renderBlogGallery` and
`renderGridGallery` render are in non-increasing `photoDateTime` order and are a permutation of
the records selected for display (the selected bucket, or all records). -/
theorem rendered_newest_first (s : AppState) :
    (blogRecords (renderBlogGallery s).2).Sorted
        (fun a b => a.photoDateTime ≥ b.photoDateTime) ∧
      (blogRecords (renderBlogGallery s).2).Perm (filesSelected s) ∧
      (gridRecords (renderGridGallery s).2).Sorted
        (fun a b => a.photoDateTime ≥ b.photoDateTime) ∧
      (gridRecords (renderGridGallery s).2).Perm (filesSelected s) := by
  rw [blogRecords_render, gridRecords_render]
  exact ⟨arraySort_newestFirst_sorted _, arraySort_perm _ _,
    arraySort_newestFirst_sorted _, arraySort_perm _ _⟩

/-! ## Loading -/

theorem foldl_concat_eq (acc : List PhotoRecord) (buckets : List (List PhotoRecord)) :
    buckets.foldl (fun allPhotosFlat dateFiles => allPhotosFlat ++ dateFiles) acc
      = acc ++ buckets.flatten := by
  induction buckets generalizing acc with
  | nil => simp
  | cons b rest ih => simp [List.foldl_cons, ih]

theorem flattenBuckets_eq (uploadedFiles : Grouped) :
    flattenBuckets uploadedFiles = (uploadedFiles.map Prod.snd).flatten := by
  unfold flattenBuckets
  rw [foldl_concat_eq]
  simp

/-- C2: after `loadPhotosFromServer` on a success response, whatever the index held before,
`uploadedFiles` is the grouped data of the response (an empty object when the response has no
`photos`), `allPhotosFlat` is the concatenation of its buckets in key order, and the length of
`allPhotosFlat` is the sum of the bucket lengths; two loads of the same response from any two
states end with the same index. -/
theorem load_rebuilds_index (photos : Option Grouped) (s : AppState) :
    (loadPhotosFromServer (ListResponse.ok photos) s).uploadedFiles = photos.getD [] ∧
      (loadPhotosFromServer (ListResponse.ok photos) s).allPhotosFlat
        = ((photos.getD []).map Prod.snd).flatten ∧
      (loadPhotosFromServer (ListResponse.ok photos) s).allPhotosFlat.length
        = (((loadPhotosFromServer (ListResponse.ok photos) s).uploadedFiles).map
            (fun bucket => bucket.2.length)).sum ∧
      (∀ t : AppState,
        (loadPhotosFromServer (ListResponse.ok photos) t).uploadedFiles
          = (loadPhotosFromServer (ListResponse.ok photos) s).uploadedFiles ∧
        (loadPhotosFromServer (ListResponse.ok photos) t).allPhotosFlat
          = (loadPhotosFromServer (ListResponse.ok photos) s).allPhotosFlat) := by
  refine ⟨rfl, ?_, ?_, fun t => ⟨rfl, rfl⟩⟩
  · simp only [loadPhotosFromServer, flattenBuckets_eq]
  · simp only [loadPhotosFromServer, flattenBuckets_eq, List.length_flatten, List.map_map]
    rfl

/-! ## Consistency of the index -/

theorem sameRecords_load (response : ListResponse) (s : AppState) :
    SameRecords (loadPhotosFromServer response s).uploadedFiles
      (loadPhotosFromServer response s).allPhotosFlat := by
  intro r
  cases response with
  | ok photos =>
    simp only [loadPhotosFromServer, flattenBuckets_eq, List.mem_flatten, List.mem_map]
    constructor
    · rintro ⟨b, ⟨kb, hkb, rfl⟩, hr⟩
      exact ⟨kb, hkb, hr⟩
    · rintro ⟨kb, hkb, hr⟩
      exact ⟨kb.2, ⟨kb, hkb, rfl⟩, hr⟩
  | notOk => simp [loadPhotosFromServer]
  | failed => simp [loadPhotosFromServer]

theorem mem_removeFromLocalState_files (photoId : String) (s : AppState)
    (kb' : String × List PhotoRecord) :
    kb' ∈ (removeFromLocalState photoId s).uploadedFiles ↔
      ∃ kb ∈ s.uploadedFiles, kb' = (kb.1, kb.2.filter (fun photo => photo.id != photoId)) ∧
        kb.2.filter (fun photo => photo.id != photoId) ≠ [] := by
  simp only [removeFromLocalState, List.mem_filterMap, List.length_eq_zero]
  constructor
  · rintro ⟨kb, hkb, h⟩
    split at h
    · cases h
    · rename_i hne
      exact ⟨kb, hkb, (Option.some.inj h).symm, hne⟩
  · rintro ⟨kb, hkb, rfl, hne⟩
    exact ⟨kb, hkb, by rw [if_neg hne]⟩

theorem sameRecords_remove (photoId : String) (s : AppState)
    (h : SameRecords s.uploadedFiles s.allPhotosFlat) :
    SameRecords (removeFromLocalState photoId s).uploadedFiles
      (removeFromLocalState photoId s).allPhotosFlat := by
  intro r
  constructor
  · intro hr
    have hr' : r ∈ s.allPhotosFlat.filter (fun photo => photo.id != photoId) := hr
    rw [List.mem_filter] at hr'
    obtain ⟨kb, hkb, hrkb⟩ := (h r).mp hr'.1
    have hmem : r ∈ kb.2.filter (fun photo => photo.id != photoId) :=
      List.mem_filter.mpr ⟨hrkb, hr'.2⟩
    refine ⟨(kb.1, kb.2.filter (fun photo => photo.id != photoId)), ?_, hmem⟩
    exact (mem_removeFromLocalState_files photoId s _).mpr
      ⟨kb, hkb, rfl, List.ne_nil_of_mem hmem⟩
  · rintro ⟨kb', hkb', hr⟩
    obtain ⟨kb, hkb, rfl, _⟩ := (mem_removeFromLocalState_files photoId s kb').mp hkb'
    have hr2 := List.mem_filter.mp hr
    show r ∈ s.allPhotosFlat.filter (fun photo => photo.id != photoId)
    exact List.mem_filter.mpr ⟨(h r).mpr ⟨kb, hkb, hr2.1⟩, hr2.2⟩

theorem dayGrouped_remove (photoId : String) (s : AppState) (h : DayGrouped s.uploadedFiles) :
    DayGrouped (removeFromLocalState photoId s).uploadedFiles := by
  intro kb' hkb' r hr
  obtain ⟨kb, hkb, rfl, _⟩ := (mem_removeFromLocalState_files photoId s kb').mp hkb'
  exact h kb hkb r (List.mem_filter.mp hr).1

/-- Members of the buckets after one bucket is replaced by a list with the same members. -/
theorem mem_updateBucket (key : String) (bucket contents : List PhotoRecord)
    (hsame : ∀ r, r ∈ contents ↔ r ∈ bucket) :
    ∀ (files : Grouped), files.lookup key = some bucket →
      (∀ kb' ∈ updateBucket key contents files,
        ∃ kb ∈ files, kb'.1 = kb.1 ∧ ∀ r, r ∈ kb'.2 ↔ r ∈ kb.2) ∧
      (∀ kb ∈ files, ∃ kb' ∈ updateBucket key contents files,
        kb'.1 = kb.1 ∧ ∀ r, r ∈ kb'.2 ↔ r ∈ kb.2) := by
  intro files
  induction files with
  | nil => intro h; simp [List.lookup] at h
  | cons head rest ih =>
    obtain ⟨k, b⟩ := head
    intro h
    by_cases hk : k = key
    · subst hk
      have hb : b = bucket := by simpa [List.lookup] using h
      subst hb
      simp only [updateBucket, if_true]
      constructor
      · intro kb' hkb'
        rcases List.mem_cons.mp hkb' with rfl | hmem
        · exact ⟨(k, b), List.mem_cons_self _ _, rfl, hsame⟩
        · exact ⟨kb', List.mem_cons_of_mem _ hmem, rfl, fun _ => Iff.rfl⟩
      · intro kb hkb
        rcases List.mem_cons.mp hkb with rfl | hmem
        · exact ⟨(k, contents), List.mem_cons_self _ _, rfl, hsame⟩
        · exact ⟨kb, List.mem_cons_of_mem _ hmem, rfl, fun _ => Iff.rfl⟩
    · have hne : (key == k) = false := by
        rw [beq_eq_false_iff_ne]
        exact fun e => hk e.symm
      have hrest : rest.lookup key = some bucket := by
        simpa [List.lookup, hne] using h
      obtain ⟨ih1, ih2⟩ := ih hrest
      simp only [updateBucket, if_neg hk]
      constructor
      · intro kb' hkb'
        rcases List.mem_cons.mp hkb' with rfl | hmem
        · exact ⟨(k, b), List.mem_cons_self _ _, rfl, fun _ => Iff.rfl⟩
        · obtain ⟨kb, hkb, e1, e2⟩ := ih1 kb' hmem
          exact ⟨kb, List.mem_cons_of_mem _ hkb, e1, e2⟩
      · intro kb hkb
        rcases List.mem_cons.mp hkb with rfl | hmem
        · exact ⟨(k, b), List.mem_cons_self _ _, rfl, fun _ => Iff.rfl⟩
        · obtain ⟨kb', hkb', e1, e2⟩ := ih2 kb hmem
          exact ⟨kb', List.mem_cons_of_mem _ hkb', e1, e2⟩

/-- Sorting `filesToShow` keeps `allPhotosFlat` and the selection, and keeps the keys and
the members of every bucket. -/
theorem sortedFilesToShow_fst (s : AppState) :
    (sortedFilesToShow s).1.allPhotosFlat = s.allPhotosFlat ∧
      (sortedFilesToShow s).1.selectedDate = s.selectedDate ∧
      (∀ kb' ∈ (sortedFilesToShow s).1.uploadedFiles,
        ∃ kb ∈ s.uploadedFiles, kb'.1 = kb.1 ∧ ∀ r, r ∈ kb'.2 ↔ r ∈ kb.2) ∧
      (∀ kb ∈ s.uploadedFiles, ∃ kb' ∈ (sortedFilesToShow s).1.uploadedFiles,
        kb'.1 = kb.1 ∧ ∀ r, r ∈ kb'.2 ↔ r ∈ kb.2) := by
  unfold sortedFilesToShow
  cases hsel : selectedBucket s with
  | none =>
    exact ⟨rfl, rfl, fun kb h => ⟨kb, h, rfl, fun _ => Iff.rfl⟩,
      fun kb h => ⟨kb, h, rfl, fun _ => Iff.rfl⟩⟩
  | some db =>
    obtain ⟨d, bucket⟩ := db
    have hlook : s.uploadedFiles.lookup d = some bucket := by
      unfold selectedBucket at hsel
      cases hs : s.selectedDate with
      | none => rw [hs] at hsel; cases hsel
      | some d' =>
        rw [hs] at hsel
        simp only at hsel
        split at hsel
        · cases hsel
        · cases hl : s.uploadedFiles.lookup d' with
          | none => rw [hl] at hsel; cases hsel
          | some b' =>
            rw [hl] at hsel
            simp only [Option.map_some', Option.some.injEq, Prod.mk.injEq] at hsel
            rw [← hsel.1, ← hsel.2]
            exact hl
    have hm := mem_updateBucket d bucket (arraySort newestFirst bucket)
      (fun r => (arraySort_perm newestFirst bucket).mem_iff) s.uploadedFiles hlook
    exact ⟨rfl, rfl, hm.1, hm.2⟩

theorem sameRecords_of_same_members (files files' : Grouped) (flat : List PhotoRecord)
    (h1 : ∀ kb' ∈ files', ∃ kb ∈ files, kb'.1 = kb.1 ∧ ∀ r, r ∈ kb'.2 ↔ r ∈ kb.2)
    (h2 : ∀ kb ∈ files, ∃ kb' ∈ files', kb'.1 = kb.1 ∧ ∀ r, r ∈ kb'.2 ↔ r ∈ kb.2)
    (h : SameRecords files flat) : SameRecords files' flat := by
  intro r
  rw [h r]
  constructor
  · rintro ⟨kb, hkb, hr⟩
    obtain ⟨kb', hkb', _, e⟩ := h2 kb hkb
    exact ⟨kb', hkb', (e r).mpr hr⟩
  · rintro ⟨kb', hkb', hr⟩
    obtain ⟨kb, hkb, _, e⟩ := h1 kb' hkb'
    exact ⟨kb, hkb, (e r).mp hr⟩

theorem dayGrouped_of_same_members (files files' : Grouped)
    (h1 : ∀ kb' ∈ files', ∃ kb ∈ files, kb'.1 = kb.1 ∧ ∀ r, r ∈ kb'.2 ↔ r ∈ kb.2)
    (h : DayGrouped files) : DayGrouped files' := by
  intro kb' hkb' r hr
  obtain ⟨kb, hkb, e1, e2⟩ := h1 kb' hkb'
  rw [e1]
  exact h kb hkb r ((e2 r).mp hr)

theorem renderBlogGallery_fst (s : AppState) :
    (renderBlogGallery s).1 = (sortedFilesToShow s).1 := by
  unfold renderBlogGallery
  simp only []
  split <;> rfl

theorem renderGridGallery_fst (s : AppState) :
    (renderGridGallery s).1 = (sortedFilesToShow s).1 := by
  unfold renderGridGallery
  simp only []
  split <;> rfl

theorem selectDate_fst (today : CivilDate) (dateKey : String) (s : AppState) :
    (selectDate today dateKey s).1
      = (sortedFilesToShow (sortedFilesToShow
          { s with selectedDate :=
              if s.selectedDate = some dateKey then none else some dateKey }).1).1 := by
  simp only [selectDate, renderGridGallery_fst, renderBlogGallery_fst, renderCalendar]

/-- Along every run, `allPhotosFlat` and the buckets hold the same records, and the buckets
are grouped by day when the server's grouped data always are. -/
theorem reachable_invariant (wellGrouped : Grouped → Prop) (s : AppState)
    (h : Reachable wellGrouped s) :
    SameRecords s.uploadedFiles s.allPhotosFlat ∧
      ((∀ g, wellGrouped g → DayGrouped g) → DayGrouped s.uploadedFiles) := by
  have sorted_step : ∀ t : AppState,
      (SameRecords t.uploadedFiles t.allPhotosFlat ∧
        ((∀ g, wellGrouped g → DayGrouped g) → DayGrouped t.uploadedFiles)) →
      (SameRecords (sortedFilesToShow t).1.uploadedFiles (sortedFilesToShow t).1.allPhotosFlat ∧
        ((∀ g, wellGrouped g → DayGrouped g) →
          DayGrouped (sortedFilesToShow t).1.uploadedFiles)) := by
    intro t ht
    obtain ⟨e1, _, m1, m2⟩ := sortedFilesToShow_fst t
    refine ⟨?_, fun hw => dayGrouped_of_same_members _ _ m1 (ht.2 hw)⟩
    rw [e1]
    exact sameRecords_of_same_members _ _ _ m1 m2 ht.1
  induction h with
  | init now =>
    refine ⟨fun r => ?_, fun _ kb hkb => ?_⟩
    · simp [initialState]
    · simp [initialState] at hkb
  | load response s _ hw ih =>
    refine ⟨sameRecords_load response s, fun hg => ?_⟩
    cases response with
    | ok photos =>
      cases photos with
      | none => intro kb hkb; simp [loadPhotosFromServer] at hkb
      | some g => exact hg g (hw g rfl)
    | notOk => intro kb hkb; simp [loadPhotosFromServer] at hkb
    | failed => intro kb hkb; simp [loadPhotosFromServer] at hkb
  | remove photoId s _ ih =>
    exact ⟨sameRecords_remove photoId s ih.1, fun hg => dayGrouped_remove photoId s (ih.2 hg)⟩
  | clear s _ ih =>
    refine ⟨fun r => ?_, fun _ kb hkb => ?_⟩
    · simp [clearLocalState]
    · simp [clearLocalState] at hkb
  | select today dateKey s _ ih =>
    rw [selectDate_fst]
    exact sorted_step _ (sorted_step _ ih)
  | blog s _ ih =>
    rw [renderBlogGallery_fst]
    exact sorted_step s ih
  | grid s _ ih =>
    rw [renderGridGallery_fst]
    exact sorted_step s ih
  | calendar today s _ ih => exact ih
  | edit localeCompare s _ ih => exact ih

/-- C3 (amended): in every state reachable through `loadPhotosFromServer`, the local removal
of `deleteSinglePhoto`, `deleteAllPhotos` and the redraws in between, `allPhotosFlat` and the
buckets of `uploadedFiles` hold the same records; and when every grouped data the server
returned put each record under the key of its own calendar day, the index is consistent:
every record of `allPhotosFlat` is in a bucket of exactly one key, that key is the record's
calendar day, and every record of a bucket is in `allPhotosFlat`. -/
theorem index_consistent_of_reachable (wellGrouped : Grouped → Prop) (s : AppState)
    (h : Reachable wellGrouped s) :
    (∀ r, r ∈ s.allPhotosFlat ↔ ∃ kb ∈ s.uploadedFiles, r ∈ kb.2) ∧
      ((∀ g, wellGrouped g → DayGrouped g) → Consistent s) := by
  obtain ⟨hsame, hday⟩ := reachable_invariant wellGrouped s h
  refine ⟨hsame, fun hw => ⟨?_, hday hw, ?_⟩⟩
  · intro r hr
    obtain ⟨kb, hkb, hrkb⟩ := (hsame r).mp hr
    refine ⟨kb.1, ⟨kb.2, hkb, hrkb⟩, ?_⟩
    rintro key ⟨bucket, hmem, hrb⟩
    rw [hday hw kb hkb r hrkb]
    exact hday hw (key, bucket) hmem r hrb
  · intro kb hkb r hr
    exact (hsame r).mpr ⟨kb, hkb, hr⟩

/-- C3 (witness): the state after loading the two sample records and removing one of them is
reachable with day-grouped server data, and is consistent. -/
theorem index_consistent_of_reachable_witness :
    Reachable DayGrouped (removeFromLocalState "p1" sampleState) ∧
      Consistent (removeFromLocalState "p1" sampleState) :=
  have hr : Reachable DayGrouped (removeFromLocalState "p1" sampleState) :=
    Reachable.remove _ _ (Reachable.load _ _ (Reachable.init _) (fun g hg => by
      injection hg with hg
      injection hg with hg
      subst hg
      unfold DayGrouped
      decide))
  ⟨hr, (index_consistent_of_reachable DayGrouped _ hr).2 (fun _ hg => hg)⟩

/-- C3 (as stated) fails: a single `loadPhotosFromServer` from the initial state reaches a
state whose index is not consistent, because the client takes the grouping of the server as it
comes; here one record sits under two keys, one of which is not its calendar day. -/
theorem misgrouped_load_not_consistent :
    Reachable (fun _ => True)
        (loadPhotosFromServer (ListResponse.ok (some misgrouped)) (initialState ⟨2024, 0, 5⟩)) ∧
      ¬ Consistent
        (loadPhotosFromServer (ListResponse.ok (some misgrouped)) (initialState ⟨2024, 0, 5⟩)) := by
  refine ⟨Reachable.load _ _ (Reachable.init _) (fun _ _ => trivial), fun h => ?_⟩
  have hk := h.2.1 ("2024-01-06", [photo1000]) (by decide) photo1000 (by decide)
  revert hk
  decide

/-! ## Local removal -/

/-- C4: the local removal of `deleteSinglePhoto` is idempotent: for every state and every id,
removing twice leaves `allPhotosFlat`, `uploadedFiles` and the rest of the state as removing
once does, so the second removal changes nothing. -/
theorem removeFromLocalState_idempotent (photoId : String) (s : AppState) :
    removeFromLocalState photoId (removeFromLocalState photoId s)
      = removeFromLocalState photoId s := by
  have hfilter : ∀ l : List PhotoRecord,
      (l.filter (fun photo => photo.id != photoId)).filter (fun photo => photo.id != photoId)
        = l.filter (fun photo => photo.id != photoId) := by
    intro l
    rw [List.filter_filter]
    simp
  have hfiles : ∀ files : Grouped,
      (files.filterMap (fun kb =>
        if (kb.2.filter (fun photo => photo.id != photoId)).length = 0 then none
        else some (kb.1, kb.2.filter (fun photo => photo.id != photoId)))).filterMap (fun kb =>
        if (kb.2.filter (fun photo => photo.id != photoId)).length = 0 then none
        else some (kb.1, kb.2.filter (fun photo => photo.id != photoId)))
      = files.filterMap (fun kb =>
        if (kb.2.filter (fun photo => photo.id != photoId)).length = 0 then none
        else some (kb.1, kb.2.filter (fun photo => photo.id != photoId))) := by
    intro files
    induction files with
    | nil => rfl
    | cons kb rest ih =>
      by_cases hz : (kb.2.filter (fun photo => photo.id != photoId)).length = 0
      · simp only [List.filterMap_cons, hz, if_true]
        exact ih
      · simp only [List.filterMap_cons, hz, if_false, hfilter, ih]
  unfold removeFromLocalState
  simp only [hfilter, hfiles]

/-- C5: after the local removal of `deleteSinglePhoto`, no record with the id is left in
`allPhotosFlat` or in a bucket and no bucket is empty; `allPhotosFlat` and every bucket that is
left are sublists of what they were (same relative order) under the same key, the keys keep
their order, and every record with another id is still in `allPhotosFlat` and in a bucket
under the key it was under. -/
theorem removeFromLocalState_effect (photoId : String) (s : AppState) :
    (∀ r ∈ (removeFromLocalState photoId s).allPhotosFlat, r.id ≠ photoId) ∧
      (∀ kb ∈ (removeFromLocalState photoId s).uploadedFiles, ∀ r ∈ kb.2, r.id ≠ photoId) ∧
      (∀ kb ∈ (removeFromLocalState photoId s).uploadedFiles, kb.2 ≠ []) ∧
      (removeFromLocalState photoId s).allPhotosFlat.Sublist s.allPhotosFlat ∧
      (∀ r ∈ s.allPhotosFlat, r.id ≠ photoId →
        r ∈ (removeFromLocalState photoId s).allPhotosFlat) ∧
      ((removeFromLocalState photoId s).uploadedFiles.map Prod.fst).Sublist
        (s.uploadedFiles.map Prod.fst) ∧
      (∀ kb' ∈ (removeFromLocalState photoId s).uploadedFiles,
        ∃ kb ∈ s.uploadedFiles, kb'.1 = kb.1 ∧ kb'.2.Sublist kb.2) ∧
      (∀ kb ∈ s.uploadedFiles, ∀ r ∈ kb.2, r.id ≠ photoId →
        ∃ kb' ∈ (removeFromLocalState photoId s).uploadedFiles,
          kb'.1 = kb.1 ∧ kb'.2.Sublist kb.2 ∧ r ∈ kb'.2) := by
  have hne : ∀ r : PhotoRecord, (r.id != photoId) = true ↔ r.id ≠ photoId := by
    intro r
    simp
  refine ⟨?_, ?_, ?_, ?_, ?_, ?_, ?_, ?_⟩
  · intro r hr
    have hr' : r ∈ s.allPhotosFlat.filter (fun photo => photo.id != photoId) := hr
    exact (hne r).mp (List.mem_filter.mp hr').2
  · intro kb' hkb' r hr
    obtain ⟨kb, _, rfl, _⟩ := (mem_removeFromLocalState_files photoId s kb').mp hkb'
    exact (hne r).mp (List.mem_filter.mp hr).2
  · intro kb' hkb'
    obtain ⟨kb, _, rfl, hnil⟩ := (mem_removeFromLocalState_files photoId s kb').mp hkb'
    exact hnil
  · exact List.filter_sublist _
  · intro r hr hid
    show r ∈ s.allPhotosFlat.filter (fun photo => photo.id != photoId)
    exact List.mem_filter.mpr ⟨hr, (hne r).mpr hid⟩
  · unfold removeFromLocalState
    simp only []
    induction s.uploadedFiles with
    | nil => exact List.Sublist.refl _
    | cons kb rest ih =>
      by_cases hz : (kb.2.filter (fun photo => photo.id != photoId)).length = 0
      · simp only [List.filterMap_cons, List.map_cons, hz, if_true]
        exact List.Sublist.cons _ ih
      · simp only [List.filterMap_cons, List.map_cons, hz, if_false]
        exact List.Sublist.cons₂ _ ih
  · intro kb' hkb'
    obtain ⟨kb, hkb, rfl, _⟩ := (mem_removeFromLocalState_files photoId s kb').mp hkb'
    exact ⟨kb, hkb, rfl, List.filter_sublist _⟩
  · intro kb hkb r hr hid
    have hmem : r ∈ kb.2.filter (fun photo => photo.id != photoId) :=
      List.mem_filter.mpr ⟨hr, (hne r).mpr hid⟩
    exact ⟨(kb.1, kb.2.filter (fun photo => photo.id != photoId)),
      (mem_removeFromLocalState_files photoId s _).mpr ⟨kb, hkb, rfl, List.ne_nil_of_mem hmem⟩,
      rfl, List.filter_sublist _, hmem⟩

/-! ## The date filter -/

theorem selectDate_selectedDate (today : CivilDate) (dateKey : String) (s : AppState) :
    (selectDate today dateKey s).1.selectedDate
      = if s.selectedDate = some dateKey then none else some dateKey := by
  rw [selectDate_fst, (sortedFilesToShow_fst _).2.1, (sortedFilesToShow_fst _).2.1]

/-- C6 (amended): calling `selectDate(d)` twice in a row leaves `selectedDate` equal to `null`
whenever `d` was not the selected date before (no date or another date selected); when `d` was
the selected date, the first call clears the filter and the second selects `d` again. -/
theorem selectDate_twice (today today' : CivilDate) (d : String) (s : AppState) :
    (selectDate today' d (selectDate today d s).1).1.selectedDate
      = if s.selectedDate = some d then some d else none := by
  rw [selectDate_selectedDate, selectDate_selectedDate]
  by_cases h : s.selectedDate = some d
  · simp [h]
  · simp [h]

/-- C6 (as stated) fails: with 2024-01-05 selected, two calls of `selectDate('2024-01-05')`
end with that date selected, not with `null`. -/
theorem selectDate_twice_from_selected :
    sampleSelected.selectedDate = some "2024-01-05" ∧
      (selectDate ⟨2024, 0, 5⟩ "2024-01-05"
        (selectDate ⟨2024, 0, 5⟩ "2024-01-05" sampleSelected).1).1.selectedDate
        = some "2024-01-05" ∧
      (selectDate ⟨2024, 0, 5⟩ "2024-01-05"
        (selectDate ⟨2024, 0, 5⟩ "2024-01-05" sampleSelected).1).1.selectedDate ≠ none := by
  rw [selectDate_selectedDate, selectDate_selectedDate]
  decide

/-! ## Renderers and the index -/

/-- C7 (code evaluated at the failing input): with the day of the two sample records selected,
the bucket of that day holds the records in upload order before the call, and in newest-first
order after `renderBlogGallery` and after `renderGridGallery`: both sort the bucket of
`uploadedFiles` itself, not a copy. -/
theorem renderers_reorder_selected_bucket :
    sampleSelected.uploadedFiles = [("2024-01-05", [photo1000, photo1500])] ∧
      (renderBlogGallery sampleSelected).1.uploadedFiles
        = [("2024-01-05", [photo1500, photo1000])] ∧
      (renderGridGallery sampleSelected).1.uploadedFiles
        = [("2024-01-05", [photo1500, photo1000])] := by
  decide

/-! ## What a date filter shows -/

theorem filesSelected_of_bucket (s : AppState) (d : String) (bucket : List PhotoRecord)
    (hsel : s.selectedDate = some d) (hd : d ≠ "")
    (hlook : s.uploadedFiles.lookup d = some bucket) : filesSelected s = bucket := by
  simp [filesSelected, selectedBucket, hsel, hd, hlook]

theorem filesSelected_of_none (s : AppState)
    (h : s.selectedDate = none ∨ s.selectedDate = some "" ∨
      ∃ d, s.selectedDate = some d ∧ s.uploadedFiles.lookup d = none) :
    filesSelected s = s.allPhotosFlat := by
  rcases h with h | h | ⟨d, h, hl⟩
  · simp [filesSelected, selectedBucket, h]
  · simp [filesSelected, selectedBucket, h]
  · by_cases hd : d = ""
    · simp [filesSelected, selectedBucket, h, hd]
    · simp [filesSelected, selectedBucket, h, hd, hl]

theorem renderBlogGallery_empty_iff (s : AppState) :
    (renderBlogGallery s).2 = [BlogNode.emptyState] ↔ blogRecords (renderBlogGallery s).2 = [] := by
  constructor
  · intro h
    rw [h]
    rfl
  · intro h
    rw [blogRecords_render, ← sortedFilesToShow_snd] at h
    unfold renderBlogGallery
    simp [h]

theorem renderGridGallery_empty_iff (s : AppState) :
    (renderGridGallery s).2 = [GridNode.emptyState] ↔ gridRecords (renderGridGallery s).2 = [] := by
  constructor
  · intro h
    rw [h]
    rfl
  · intro h
    rw [gridRecords_render, ← sortedFilesToShow_snd] at h
    unfold renderGridGallery
    simp [h]

/-- C8 (amended): when `selectedDate` is a date key for which `uploadedFiles` has a bucket,
`renderBlogGallery` and `renderGridGallery` show exactly the records of that bucket; when
`selectedDate` is `null` (or empty), or is a key that has no bucket, both show all records of
`allPhotosFlat`; and each view renders its empty-state message exactly when it shows no
record. -/
theorem shown_records_by_filter (s : AppState) :
    (∀ d bucket, s.selectedDate = some d → d ≠ "" → s.uploadedFiles.lookup d = some bucket →
        (blogRecords (renderBlogGallery s).2).Perm bucket ∧
        (gridRecords (renderGridGallery s).2).Perm bucket) ∧
      ((s.selectedDate = none ∨ s.selectedDate = some "" ∨
          ∃ d, s.selectedDate = some d ∧ s.uploadedFiles.lookup d = none) →
        (blogRecords (renderBlogGallery s).2).Perm s.allPhotosFlat ∧
        (gridRecords (renderGridGallery s).2).Perm s.allPhotosFlat) ∧
      ((renderBlogGallery s).2 = [BlogNode.emptyState] ↔
        blogRecords (renderBlogGallery s).2 = []) ∧
      ((renderGridGallery s).2 = [GridNode.emptyState] ↔
        gridRecords (renderGridGallery s).2 = []) := by
  refine ⟨?_, ?_, renderBlogGallery_empty_iff s, renderGridGallery_empty_iff s⟩
  · intro d bucket hsel hd hlook
    rw [blogRecords_render, gridRecords_render, filesSelected_of_bucket s d bucket hsel hd hlook]
    exact ⟨arraySort_perm _ _, arraySort_perm _ _⟩
  · intro h
    rw [blogRecords_render, gridRecords_render, filesSelected_of_none s h]
    exact ⟨arraySort_perm _ _, arraySort_perm _ _⟩

/-- C8 (witness): with the day of the two sample records selected, both views show the two
records of its bucket. -/
theorem shown_records_by_filter_witness :
    (blogRecords (renderBlogGallery sampleSelected).2).Perm [photo1000, photo1500] ∧
      (gridRecords (renderGridGallery sampleSelected).2).Perm [photo1000, photo1500] :=
  (shown_records_by_filter sampleSelected).1 "2024-01-05" [photo1000, photo1500]
    (by decide) (by decide) (by decide)

/-- C8 (as stated) fails: with 2024-02-01 selected, a day that has no bucket, both views show
all records instead of the empty-state message. -/
theorem missing_bucket_shows_all :
    sampleOtherDay.selectedDate = some "2024-02-01" ∧
      sampleOtherDay.uploadedFiles.lookup "2024-02-01" = none ∧
      blogRecords (renderBlogGallery sampleOtherDay).2 = [photo1500, photo1000] ∧
      (renderBlogGallery sampleOtherDay).2 ≠ [BlogNode.emptyState] ∧
      gridRecords (renderGridGallery sampleOtherDay).2 = [photo1500, photo1000] ∧
      (renderGridGallery sampleOtherDay).2 ≠ [GridNode.emptyState] := by
  decide

/-! ## The blog feed: date headings and separators -/

theorem dateHeadingFor_eq (lastDate : Option String) (file : PhotoRecord) :
    dateHeadingFor lastDate file
      = if lastDate ≠ some (dateKey file.photoDateTime)
        then [BlogNode.dateHeading file.photoDateTime] else [] := by
  unfold dateHeadingFor
  by_cases h : some (dateKey file.photoDateTime) = lastDate
  · rw [if_neg (not_not.mpr h), if_neg (not_not.mpr h.symm)]
  · rw [if_pos h, if_pos (fun e => h e.symm)]

theorem filter_keep_dateHeadingFor (lastDate : Option String) (file : PhotoRecord) :
    (dateHeadingFor lastDate file).filter (fun n => n.isHeading || n.isEntry)
      = dateHeadingFor lastDate file := by
  unfold dateHeadingFor
  split <;> rfl

theorem filter_drop_separatorAfter (key : String) (rest : List PhotoRecord) :
    (separatorAfter key rest).filter (fun n => n.isHeading || n.isEntry) = [] := by
  unfold separatorAfter
  split
  · rfl
  · split <;> rfl

/-- Without its separators, a feed is each record preceded by a heading exactly when its key
differs from the key of the record before it. -/
theorem filter_headings_entries (previous : Option PhotoRecord) (files : List PhotoRecord) :
    (blogEntries (previous.map (fun p => dateKey p.photoDateTime)) files).filter
        (fun n => n.isHeading || n.isEntry)
      = (List.zip (previous :: files.map some) files).flatMap (fun pair =>
          (if pair.1.map (fun previous => dateKey previous.photoDateTime)
              ≠ some (dateKey pair.2.photoDateTime)
            then [BlogNode.dateHeading pair.2.photoDateTime] else [])
          ++ [BlogNode.blogEntry pair.2]) := by
  induction files generalizing previous with
  | nil => rfl
  | cons file rest ih =>
    have ih' := ih (some file)
    simp only [Option.map_some'] at ih'
    rw [blogEntries_cons, List.filter_append, List.filter_append, filter_keep_dateHeadingFor,
      ih', dateHeadingFor_eq]
    have hmid : (BlogNode.blogEntry file :: separatorAfter (dateKey file.photoDateTime) rest).filter
        (fun n => n.isHeading || n.isEntry) = [BlogNode.blogEntry file] := by
      rw [List.filter_cons_of_pos (by rfl), filter_drop_separatorAfter]
    rw [hmid]
    simp only [List.map_cons, List.zip_cons_cons, List.flatMap_cons, List.append_assoc]

theorem headingKeys_append (xs ys : List BlogNode) :
    headingKeys (xs ++ ys) = headingKeys xs ++ headingKeys ys := by
  simp [headingKeys, List.filterMap_append]

theorem headingKeys_separatorAfter (key : String) (rest : List PhotoRecord) :
    headingKeys (separatorAfter key rest) = [] := by
  unfold separatorAfter
  split
  · rfl
  · split <;> rfl

theorem headingKeys_blogEntries_cons (lastDate : Option String) (file : PhotoRecord)
    (rest : List PhotoRecord) :
    headingKeys (blogEntries lastDate (file :: rest))
      = headingKeys (dateHeadingFor lastDate file)
        ++ headingKeys (blogEntries (some (dateKey file.photoDateTime)) rest) := by
  rw [blogEntries_cons, headingKeys_append, headingKeys_append]
  have : headingKeys (BlogNode.blogEntry file :: separatorAfter (dateKey file.photoDateTime) rest)
      = headingKeys (separatorAfter (dateKey file.photoDateTime) rest) := rfl
  rw [this, headingKeys_separatorAfter, List.append_nil]

theorem headingKeys_dateHeadingFor (lastDate : Option String) (file : PhotoRecord) :
    headingKeys (dateHeadingFor lastDate file)
      = if some (dateKey file.photoDateTime) ≠ lastDate then [dateKey file.photoDateTime]
        else [] := by
  unfold dateHeadingFor
  split <;> rfl

/-- In a feed of records sorted newest first that follows a record of time value `t0`, the
headings are of pairwise different days, all of them earlier than the day of `t0`. -/
theorem headingKeys_sorted (files : List PhotoRecord) :
    files.Sorted (fun a b => b.photoDateTime ≤ a.photoDateTime) →
    ∀ t0 : Int, (∀ r ∈ files, r.photoDateTime ≤ t0) →
      (headingKeys (blogEntries (some (dateKey t0)) files)).Nodup ∧
      ∀ key ∈ headingKeys (blogEntries (some (dateKey t0)) files),
        ∃ t, key = dateKey t ∧ Day t < Day t0 := by
  induction files with
  | nil =>
    intro _ t0 _
    exact ⟨List.nodup_nil, fun key h => by simp [blogEntries, headingKeys] at h⟩
  | cons file rest ih =>
    intro hs t0 hle
    have hs' := List.sorted_cons.mp hs
    obtain ⟨nd, earlier⟩ := ih hs'.2 file.photoDateTime hs'.1
    have hfile : Day file.photoDateTime ≤ Day t0 := Day_mono (hle file (List.mem_cons_self _ _))
    rw [headingKeys_blogEntries_cons, headingKeys_dateHeadingFor]
    by_cases hk : some (dateKey file.photoDateTime) = some (dateKey t0)
    · rw [if_neg (not_not.mpr hk), List.nil_append]
      refine ⟨nd, fun key hkey => ?_⟩
      obtain ⟨t, e, lt⟩ := earlier key hkey
      exact ⟨t, e, lt_of_lt_of_le lt hfile⟩
    · rw [if_pos hk]
      have hday : Day file.photoDateTime < Day t0 := by
        refine lt_of_le_of_ne hfile (fun e => hk ?_)
        rw [(dateKey_eq_iff _ _).mpr e]
      constructor
      · refine List.nodup_cons.mpr ⟨fun hmem => ?_, nd⟩
        obtain ⟨t, e, lt⟩ := earlier _ hmem
        have := (dateKey_eq_iff _ _).mp e
        omega
      · intro key hkey
        rcases List.mem_cons.mp hkey with rfl | hmem
        · exact ⟨file.photoDateTime, rfl, hday⟩
        · obtain ⟨t, e, lt⟩ := earlier key hmem
          exact ⟨t, e, lt_of_lt_of_le lt hfile⟩

theorem headingKeys_nodup (files : List PhotoRecord)
    (hs : files.Sorted (fun a b => b.photoDateTime ≤ a.photoDateTime)) :
    (headingKeys (blogEntries none files)).Nodup := by
  cases files with
  | nil => exact List.nodup_nil
  | cons file rest =>
    have hs' := List.sorted_cons.mp hs
    obtain ⟨nd, earlier⟩ := headingKeys_sorted rest hs'.2 file.photoDateTime hs'.1
    rw [headingKeys_blogEntries_cons, headingKeys_dateHeadingFor, if_pos (by simp)]
    refine List.nodup_cons.mpr ⟨fun hmem => ?_, nd⟩
    obtain ⟨t, e, lt⟩ := earlier _ hmem
    have := (dateKey_eq_iff _ _).mp e
    omega

/-- Every heading is the heading of a record of the feed, and the key of every record is the
key of a heading of the feed or of the heading before it. -/
theorem headingKeys_mem (files : List PhotoRecord) :
    ∀ lastDate : Option String,
      (∀ key ∈ headingKeys (blogEntries lastDate files),
        ∃ r ∈ files, dateKey r.photoDateTime = key) ∧
      (∀ r ∈ files, dateKey r.photoDateTime ∈ headingKeys (blogEntries lastDate files) ∨
        lastDate = some (dateKey r.photoDateTime)) := by
  induction files with
  | nil =>
    intro lastDate
    exact ⟨fun key h => by simp [blogEntries, headingKeys] at h, fun r h => by simp at h⟩
  | cons file rest ih =>
    intro lastDate
    obtain ⟨ih1, ih2⟩ := ih (some (dateKey file.photoDateTime))
    rw [headingKeys_blogEntries_cons, headingKeys_dateHeadingFor]
    constructor
    · intro key hkey
      rcases List.mem_append.mp hkey with h | h
      · split at h
        · rw [List.mem_singleton] at h
          exact ⟨file, List.mem_cons_self _ _, h.symm⟩
        · simp at h
      · obtain ⟨r, hr, e⟩ := ih1 key h
        exact ⟨r, List.mem_cons_of_mem _ hr, e⟩
    · have hfile : dateKey file.photoDateTime ∈
          (if some (dateKey file.photoDateTime) ≠ lastDate then [dateKey file.photoDateTime]
            else []) ++ headingKeys (blogEntries (some (dateKey file.photoDateTime)) rest) ∨
          lastDate = some (dateKey file.photoDateTime) := by
        by_cases hk : some (dateKey file.photoDateTime) = lastDate
        · exact Or.inr hk.symm
        · rw [if_pos hk]
          exact Or.inl (List.mem_append_left _ (List.mem_singleton_self _))
      intro r hr
      rcases List.mem_cons.mp hr with rfl | hmem
      · exact hfile
      · rcases ih2 r hmem with h | h
        · exact Or.inl (List.mem_append_right _ h)
        · rw [← Option.some.inj h]
          exact hfile



theorem renderBlogGallery_snd (s : AppState) :
    (renderBlogGallery s).2
      = if (arraySort newestFirst (filesSelected s)).length = 0 then [BlogNode.emptyState]
        else blogEntries none (arraySort newestFirst (filesSelected s)) := by
  unfold renderBlogGallery
  simp only [sortedFilesToShow_snd]
  split <;> rfl

/-- Headings by key: in the feed of `renderBlogGallery`, a date heading stands before a record
exactly when the record is the first one or its key (the UTC day of its time value) differs from
the key of the record rendered before it; the keys of the headings are pairwise different and
are exactly the keys of the records shown; and for two records whose time values are 10:00 and
15:00 of one UTC day the feed is one heading, the later entry, a light separator and the earlier
entry. -/
theorem blog_date_headings (s : AppState) :
    (renderBlogGallery s).2.filter (fun n => n.isHeading || n.isEntry)
        = headingsAndEntries (blogRecords (renderBlogGallery s).2) ∧
      (headingKeys (renderBlogGallery s).2).Nodup ∧
      (∀ key, key ∈ headingKeys (renderBlogGallery s).2 ↔
        ∃ r ∈ blogRecords (renderBlogGallery s).2, dateKey r.photoDateTime = key) ∧
      (renderBlogGallery sampleState).2
        = [BlogNode.dateHeading photo1500.photoDateTime, BlogNode.blogEntry photo1500,
            BlogNode.entrySeparator, BlogNode.blogEntry photo1000] := by
  refine ⟨?_, ?_, ?_, by decide⟩
  · rw [blogRecords_render, renderBlogGallery_snd]
    split
    · rename_i h
      rw [List.length_eq_zero.mp h]
      rfl
    · exact filter_headings_entries none _
  · rw [renderBlogGallery_snd]
    split
    · exact List.nodup_nil
    · exact headingKeys_nodup _ (arraySort_newestFirst_sorted _)
  · intro key
    rw [blogRecords_render, renderBlogGallery_snd]
    split
    · rename_i h
      rw [List.length_eq_zero.mp h]
      simp [headingKeys]
    · obtain ⟨h1, h2⟩ := headingKeys_mem (arraySort newestFirst (filesSelected s)) none
      constructor
      · exact h1 key
      · rintro ⟨r, hr, rfl⟩
        rcases h2 r hr with h | h
        · exact h
        · cases h

theorem entriesAndSeparators_cons (file : PhotoRecord) (rest : List PhotoRecord) :
    entriesAndSeparators (file :: rest)
      = BlogNode.blogEntry file :: separatorAfter (dateKey file.photoDateTime) rest
        ++ entriesAndSeparators rest := by
  cases rest with
  | nil => rfl
  | cons next rest' =>
    simp only [entriesAndSeparators, separatorAfter, List.tail_cons, List.map_cons,
      List.cons_append, List.zip_cons_cons, List.flatMap_cons]

theorem filter_entries_separators (lastDate : Option String) (files : List PhotoRecord) :
    (blogEntries lastDate files).filter (fun n => n.isEntry || n.isSeparator)
      = entriesAndSeparators files := by
  induction files generalizing lastDate with
  | nil => rfl
  | cons file rest ih =>
    rw [blogEntries_cons, entriesAndSeparators_cons, List.filter_append, List.filter_append,
      ih]
    have h1 : (dateHeadingFor lastDate file).filter (fun n => n.isEntry || n.isSeparator)
        = [] := by
      unfold dateHeadingFor
      split <;> rfl
    have h2 : (separatorAfter (dateKey file.photoDateTime) rest).filter
        (fun n => n.isEntry || n.isSeparator)
        = separatorAfter (dateKey file.photoDateTime) rest := by
      unfold separatorAfter
      split
      · rfl
      · split <;> rfl
    rw [h1, List.filter_cons_of_pos (by rfl), h2, List.nil_append]

theorem count_separators (lastDate : Option String) (files : List PhotoRecord) :
    ((blogEntries lastDate files).filter BlogNode.isSeparator).length = files.length - 1 := by
  induction files generalizing lastDate with
  | nil => rfl
  | cons file rest ih =>
    rw [blogEntries_cons, List.filter_append, List.filter_append, List.length_append,
      List.length_append, ih]
    have h1 : (dateHeadingFor lastDate file).filter BlogNode.isSeparator = [] := by
      unfold dateHeadingFor
      split <;> rfl
    rw [h1, List.filter_cons_of_neg (by simp [BlogNode.isSeparator])]
    cases rest with
    | nil => rfl
    | cons next rest' =>
      have h2 : ((separatorAfter (dateKey file.photoDateTime) (next :: rest')).filter
          BlogNode.isSeparator).length = 1 := by
        unfold separatorAfter
        simp only []
        split <;> rfl
      rw [h2]
      simp only [List.length_nil, List.length_cons]
      omega

theorem separatorFollowedBy_of_not_separator (a b : BlogNode) (h : a.isSeparator = false) :
    SeparatorFollowedBy a b := by
  constructor
  · intro e
    rw [e] at h
    cases h
  · intro e
    rw [e] at h
    cases h

theorem chain_cons_heading (lastDate : Option String) (file : PhotoRecord)
    (tail : List BlogNode)
    (h : List.Chain' SeparatorFollowedBy (BlogNode.blogEntry file :: tail)) :
    List.Chain' SeparatorFollowedBy (dateHeadingFor lastDate file ++ BlogNode.blogEntry file :: tail) := by
  unfold dateHeadingFor
  split
  · exact List.Chain'.cons (separatorFollowedBy_of_not_separator _ _ rfl) h
  · exact h

theorem chain_blogEntries (files : List PhotoRecord) :
    ∀ lastDate : Option String, List.Chain' SeparatorFollowedBy (blogEntries lastDate files) := by
  induction files with
  | nil => intro _; exact List.chain'_nil
  | cons file rest ih =>
    intro lastDate
    rw [blogEntries_cons, List.append_assoc]
    apply chain_cons_heading
    cases rest with
    | nil => exact List.chain'_singleton _
    | cons next rest' =>
      have ihx := ih (some (dateKey file.photoDateTime))
      rw [blogEntries_cons, List.append_assoc] at ihx ⊢
      by_cases hk : dateKey file.photoDateTime = dateKey next.photoDateTime
      · have hh : dateHeadingFor (some (dateKey file.photoDateTime)) next = [] := by
          simp [dateHeadingFor, hk]
        rw [hh] at ihx ⊢
        simp only [separatorAfter, hk, if_true, List.cons_append, List.nil_append] at ihx ⊢
        refine List.Chain'.cons (separatorFollowedBy_of_not_separator _ _ rfl) ?_
        refine List.Chain'.cons ⟨fun e => (by cases e), fun _ => ⟨next, rfl⟩⟩ ihx
      · have hh : dateHeadingFor (some (dateKey file.photoDateTime)) next
            = [BlogNode.dateHeading next.photoDateTime] := by
          have : dateKey next.photoDateTime ≠ dateKey file.photoDateTime := fun e => hk e.symm
          simp [dateHeadingFor, this]
        rw [hh] at ihx ⊢
        simp only [separatorAfter, hk, if_false, List.cons_append, List.nil_append] at ihx ⊢
        refine List.Chain'.cons (separatorFollowedBy_of_not_separator _ _ rfl) ?_
        refine List.Chain'.cons ⟨fun _ => ⟨_, rfl⟩, fun e => (by cases e)⟩ ihx

theorem getLast_blogEntries (files : List PhotoRecord) :
    ∀ lastDate : Option String,
      (blogEntries lastDate files).getLast? = files.getLast?.map BlogNode.blogEntry := by
  induction files with
  | nil => intro _; rfl
  | cons file rest ih =>
    intro lastDate
    rw [blogEntries_cons]
    cases rest with
    | nil =>
      simp [separatorAfter, blogEntries]
    | cons next rest' =>
      have ihx := ih (some (dateKey file.photoDateTime))
      have hne : blogEntries (some (dateKey file.photoDateTime)) (next :: rest') ≠ [] := by
        rw [blogEntries_cons]
        simp
      rw [List.getLast?_append_of_ne_nil _ hne, ihx]
      simp [List.getLast?_cons_cons]

/-- C10: in the feed of `renderBlogGallery` over `n` records, the entries and separators are
each record followed, unless it is the last, by one separator, the light one when the next
record has the same calendar-day key and the heavy one otherwise; there are `n - 1` separators;
a heavy separator is immediately followed by a date heading and a light one by a blog entry;
and the feed does not end with a separator. -/
theorem blog_separators (s : AppState) :
    (renderBlogGallery s).2.filter (fun n => n.isEntry || n.isSeparator)
        = entriesAndSeparators (blogRecords (renderBlogGallery s).2) ∧
      ((renderBlogGallery s).2.filter BlogNode.isSeparator).length
        = (blogRecords (renderBlogGallery s).2).length - 1 ∧
      List.Chain' SeparatorFollowedBy (renderBlogGallery s).2 ∧
      (∀ n ∈ (renderBlogGallery s).2.getLast?, n.isSeparator = false) := by
  rw [blogRecords_render, renderBlogGallery_snd]
  split
  · rename_i h
    rw [List.length_eq_zero.mp h]
    exact ⟨rfl, rfl, List.chain'_singleton _, fun n hn => by cases hn; rfl⟩
  · refine ⟨filter_entries_separators _ _, count_separators _ _, chain_blogEntries _ _, ?_⟩
    intro n hn
    rw [getLast_blogEntries] at hn
    obtain ⟨r, _, rfl⟩ := Option.mem_map.mp hn
    rfl

/-! ## The description of a blog entry -/

theorem exists_mem_dropWhile (p : Char → Bool) (l : List Char) :
    (∃ c ∈ l.dropWhile p, p c = false) ↔ ∃ c ∈ l, p c = false := by
  induction l with
  | nil => simp
  | cons a l ih =>
    by_cases h : p a = true
    · rw [List.dropWhile_cons_of_pos h, ih]
      constructor
      · rintro ⟨c, hc, hp⟩
        exact ⟨c, List.mem_cons_of_mem _ hc, hp⟩
      · rintro ⟨c, hc, hp⟩
        rcases List.mem_cons.mp hc with rfl | hmem
        · rw [h] at hp
          cases hp
        · exact ⟨c, hmem, hp⟩
    · rw [List.dropWhile_cons_of_neg h]

theorem dropWhile_ne_nil_iff (p : Char → Bool) (l : List Char) :
    l.dropWhile p ≠ [] ↔ ∃ c ∈ l, p c = false := by
  rw [Ne, List.dropWhile_eq_nil_iff]
  constructor
  · intro h
    by_contra hc
    apply h
    intro x hx
    by_contra hpx
    exact hc ⟨x, hx, by simpa using hpx⟩
  · rintro ⟨c, hc, hp⟩ h
    rw [h c hc] at hp
    cases hp

/-- Trimming leaves something exactly when some character is not white space. -/
theorem trimChars_ne_nil_iff (cs : List Char) :
    trimChars cs ≠ [] ↔ ∃ c ∈ cs, isWhiteSpace c = false := by
  unfold trimChars
  rw [Ne, List.reverse_eq_nil_iff, ← Ne, dropWhile_ne_nil_iff]
  constructor
  · rintro ⟨c, hc, hp⟩
    exact (exists_mem_dropWhile _ _).mp ⟨c, List.mem_reverse.mp hc, hp⟩
  · intro h
    obtain ⟨c, hc, hp⟩ := (exists_mem_dropWhile _ _).mpr h
    exact ⟨c, List.mem_reverse.mpr hc, hp⟩

theorem trim_bne_empty (s : String) :
    (trim s != "") = true ↔ ∃ c ∈ s.data, isWhiteSpace c = false := by
  rw [← trimChars_ne_nil_iff]
  unfold trim
  simp [String.ext_iff]

theorem splitNewlineChars_ne_nil (cs : List Char) : splitNewlineChars cs ≠ [] := by
  induction cs with
  | nil => simp [splitNewlineChars]
  | cons c cs ih =>
    unfold splitNewlineChars
    split
    · simp
    · split <;> simp

/-- The segments of a text hold exactly its characters other than the newline. -/
theorem mem_splitNewlineChars (cs : List Char) (c : Char) :
    (∃ segment ∈ splitNewlineChars cs, c ∈ segment) ↔ c ∈ cs ∧ c ≠ '\n' := by
  induction cs with
  | nil => simp [splitNewlineChars]
  | cons a cs ih =>
    unfold splitNewlineChars
    by_cases ha : a = '\n'
    · rw [if_pos ha]
      simp only [List.mem_cons, exists_eq_or_imp, List.not_mem_nil, false_or]
      rw [ih]
      constructor
      · rintro ⟨h1, h2⟩
        exact ⟨Or.inr h1, h2⟩
      · rintro ⟨h1 | h1, h2⟩
        · exact absurd (h1.trans ha) h2
        · exact ⟨h1, h2⟩
    · rw [if_neg ha]
      cases hs : splitNewlineChars cs with
      | nil => exact absurd hs (splitNewlineChars_ne_nil cs)
      | cons segment segments =>
        rw [hs] at ih
        simp only [List.mem_cons, exists_eq_or_imp] at ih ⊢
        constructor
        · rintro (h | h)
          · rcases h with rfl | h
            · exact ⟨Or.inl rfl, ha⟩
            · have := ih.mp (Or.inl h)
              exact ⟨Or.inr this.1, this.2⟩
          · have := ih.mp (Or.inr h)
            exact ⟨Or.inr this.1, this.2⟩
        · rintro ⟨h1 | h1, h2⟩
          · exact Or.inl (Or.inl h1)
          · rcases ih.mpr ⟨h1, h2⟩ with h | h
            · exact Or.inl (Or.inr h)
            · exact Or.inr h

theorem isWhiteSpace_newline : isWhiteSpace '\n' = true := by decide

/-- The guard `file.description && file.description.trim()` holds exactly when the description
has a non-blank line. -/
theorem hasDescription_iff (description : Option String) :
    hasDescription description = true ↔ nonBlankLines description ≠ [] := by
  cases description with
  | none => simp [hasDescription, nonBlankLines]
  | some d =>
    simp only [hasDescription, nonBlankLines, Bool.and_eq_true, Ne, List.filter_eq_nil_iff,
      not_forall]
    rw [trim_bne_empty]
    constructor
    · rintro ⟨_, c, hc, hw⟩
      have hn : c ≠ '\n' := by
        intro e
        rw [e, isWhiteSpace_newline] at hw
        cases hw
      obtain ⟨segment, hseg, hcs⟩ := (mem_splitNewlineChars d.data c).mpr ⟨hc, hn⟩
      refine ⟨String.mk segment, List.mem_map.mpr ⟨segment, hseg, rfl⟩, ?_⟩
      simp only [decide_not, Bool.not_eq_true', decide_eq_false_iff_not, not_not]
      intro e
      have := (trim_bne_empty (String.mk segment)).mpr ⟨c, hcs, hw⟩
      rw [e] at this
      simp at this
    · rintro ⟨line, hline, hne⟩
      obtain ⟨segment, hseg, rfl⟩ := List.mem_map.mp (by simpa [splitNewline] using hline)
      have hne' : (trim (String.mk segment) != "") = true := by simpa using hne
      obtain ⟨c, hc, hw⟩ := (trim_bne_empty _).mp hne'
      have hmem := ((mem_splitNewlineChars d.data c).mp ⟨segment, hseg, hc⟩).1
      refine ⟨?_, c, hmem, hw⟩
      simp only [bne_iff_ne, ne_eq]
      intro e
      rw [e] at hmem
      simp at hmem

theorem descriptionParts_eq (d : String) : descriptionParts d = nonBlankLines (some d) := by
  unfold descriptionParts nonBlankLines
  simp only []
  congr 1
  funext p
  by_cases h : trim p = ""
  · simp [h]
  · simp [h]

/-- The two description blocks around the image, from the non-blank lines. -/
theorem entryHTML_eq (env : Env) (file : PhotoRecord) :
    entryHTML env file
      = EntryPart.header file.title file.photoDateTime (truthyText file.location)
        :: (match nonBlankLines file.description with
            | [] => [EntryPart.image (imageUrl env file.fileName) file.title]
            | first :: rest =>
              EntryPart.description [trim first]
                :: EntryPart.image (imageUrl env file.fileName) file.title
                :: (if rest = [] then [] else [EntryPart.description (rest.map trim)])) := by
  unfold entryHTML
  by_cases h : hasDescription file.description = true
  · have hne := (hasDescription_iff _).mp h
    cases hd : file.description with
    | none => rw [hd] at hne; simp [nonBlankLines] at hne
    | some d =>
      rw [hd] at hne h
      simp only [h, if_true, Option.getD_some, descriptionParts_eq]
      cases hl : nonBlankLines (some d) with
      | nil => exact absurd hl hne
      | cons first rest =>
        cases rest with
        | nil => simp
        | cons second rest' => simp
  · have hnil : nonBlankLines file.description = [] := by
      by_contra hne
      exact h ((hasDescription_iff _).mpr hne)
    simp only [h, hnil]
    simp

theorem splitNewlineChars_of_not_mem (cs : List Char) (h : '\n' ∉ cs) :
    splitNewlineChars cs = [cs] := by
  induction cs with
  | nil => rfl
  | cons c cs ih =>
    have hc : c ≠ '\n' := fun e => h (e ▸ List.mem_cons_self _ _)
    have hcs : '\n' ∉ cs := fun hm => h (List.mem_cons_of_mem _ hm)
    unfold splitNewlineChars
    rw [if_neg hc, ih hcs]

theorem splitNewlineChars_append (a b : List Char) (h : '\n' ∉ a) :
    splitNewlineChars (a ++ '\n' :: b) = a :: splitNewlineChars b := by
  induction a with
  | nil => simp [splitNewlineChars]
  | cons c cs ih =>
    have hc : c ≠ '\n' := fun e => h (e ▸ List.mem_cons_self _ _)
    have hcs : '\n' ∉ cs := fun hm => h (List.mem_cons_of_mem _ hm)
    rw [List.cons_append, splitNewlineChars, if_neg hc, ih hcs]

theorem nonBlankLines_two (s1 s2 : String) (h1 : '\n' ∉ s1.data) (h2 : '\n' ∉ s2.data)
    (t1 : trim s1 ≠ "") (t2 : trim s2 ≠ "") :
    nonBlankLines (some (s1 ++ "\n" ++ s2)) = [s1, s2] := by
  have hdata : (s1 ++ "\n" ++ s2).data = s1.data ++ '\n' :: s2.data := by
    simp [String.data_append]
  unfold nonBlankLines splitNewline
  simp only []
  rw [hdata, splitNewlineChars_append _ _ h1, splitNewlineChars_of_not_mem _ h2]
  simp [t1, t2]

/-- C11: for every record, the blog entry is the header, then, when the description has a
non-blank line, a description block with the first non-blank line trimmed, then the image, then,
when more non-blank lines remain, one description block with them, trimmed and in their order;
with two non-blank newline-separated segments the image stands between segment 1 and
segment 2; with a missing or blank description the entry is the header and the image only. -/
theorem blog_entry_description (env : Env) (file : PhotoRecord) :
    (∀ first rest, nonBlankLines file.description = first :: rest →
      entryHTML env file
        = EntryPart.header file.title file.photoDateTime (truthyText file.location)
          :: EntryPart.description [trim first]
          :: EntryPart.image (imageUrl env file.fileName) file.title
          :: (if rest = [] then [] else [EntryPart.description (rest.map trim)])) ∧
      (∀ s1 s2 : String, '\n' ∉ s1.data → '\n' ∉ s2.data → trim s1 ≠ "" → trim s2 ≠ "" →
        file.description = some (s1 ++ "\n" ++ s2) →
        entryHTML env file
          = [EntryPart.header file.title file.photoDateTime (truthyText file.location),
              EntryPart.description [trim s1],
              EntryPart.image (imageUrl env file.fileName) file.title,
              EntryPart.description [trim s2]]) ∧
      ((file.description = none ∨ ∃ d, file.description = some d ∧ trim d = "") →
        entryHTML env file
          = [EntryPart.header file.title file.photoDateTime (truthyText file.location),
              EntryPart.image (imageUrl env file.fileName) file.title]) := by
  refine ⟨?_, ?_, ?_⟩
  · intro first rest h
    rw [entryHTML_eq, h]
  · intro s1 s2 h1 h2 t1 t2 hd
    rw [entryHTML_eq, hd, nonBlankLines_two s1 s2 h1 h2 t1 t2]
    simp
  · intro h
    have hnil : nonBlankLines file.description = [] := by
      by_contra hne
      have hh := (hasDescription_iff _).mpr hne
      rcases h with h | ⟨d, h, ht⟩
      · rw [h] at hh
        simp [hasDescription] at hh
      · rw [h] at hh
        simp [hasDescription, ht] at hh
    rw [entryHTML_eq, hnil]

/-- C11 (witness): the sample record with the description "  First look \nThen the details"
has the image between "First look" and "Then the details". -/
theorem blog_entry_description_witness :
    entryHTML sampleEnv photoTwoSegments
      = [EntryPart.header "Morning" 1704448800000 none,
          EntryPart.description ["First look"],
          EntryPart.image "http://localhost:5000/photos/p1.jpg?_=1704470400000" "Morning",
          EntryPart.description ["Then the details"]] :=
  (blog_entry_description sampleEnv photoTwoSegments).2.1 "  First look " "Then the details"
    (by decide) (by decide) (by decide) (by decide) (by decide)

/-! ## Frames of the redraws -/

/-- Sorting `filesToShow` changes nothing of the state but `uploadedFiles`. -/
theorem sortedFilesToShow_frame (s : AppState) :
    (sortedFilesToShow s).1
      = { s with uploadedFiles := (sortedFilesToShow s).1.uploadedFiles } := by
  unfold sortedFilesToShow
  cases selectedBucket s with
  | none => rfl
  | some db => rfl

theorem sortedFilesToShow_of_empty (s : AppState) (h : s.uploadedFiles = []) :
    (sortedFilesToShow s).1 = s := by
  unfold sortedFilesToShow
  have hsel : selectedBucket s = none := by
    unfold selectedBucket
    cases s.selectedDate with
    | none => rfl
    | some d =>
      simp only [h, List.lookup, Option.map_none']
      split <;> rfl
  rw [hsel]

/-- The redraw after a load keeps the staged files and `allPhotosFlat`, and resets the edit
variables. -/
theorem redrawAfterLoad_state (pf : Platform) (s : AppState) (page : Page) :
    (redrawAfterLoad pf s page).state.filesToUpload = s.filesToUpload ∧
      (redrawAfterLoad pf s page).state.filesToBulkUpload = s.filesToBulkUpload ∧
      (redrawAfterLoad pf s page).state.allPhotosFlat = s.allPhotosFlat ∧
      (redrawAfterLoad pf s page).state.currentlyEditingPhotoId = none ∧
      (redrawAfterLoad pf s page).state.currentEditPhotoRotation = 0 := by
  simp only [redrawAfterLoad, renderEditPhotoSelection, renderGridGallery_fst,
    renderBlogGallery_fst, renderCalendar]
  rw [sortedFilesToShow_frame (sortedFilesToShow s).1, sortedFilesToShow_frame s]
  simp

theorem redrawAfterLoad_page (pf : Platform) (s : AppState) (page : Page) :
    (redrawAfterLoad pf s page).page = hideEditForm page := rfl

theorem redrawAfterDelete_of_empty (pf : Platform) (s : AppState) (page : Page)
    (h : s.uploadedFiles = []) :
    (redrawAfterDelete pf s page).state
      = { s with currentlyEditingPhotoId := none, currentEditPhotoRotation := 0 } := by
  simp only [redrawAfterDelete, renderEditPhotoSelection, renderGridGallery_fst,
    renderBlogGallery_fst, renderCalendar]
  rw [sortedFilesToShow_of_empty s h, sortedFilesToShow_of_empty s h]

/-! ## Loading never fails -/

/-- C14: `loadPhotosFromServer` gives a state for every outcome of the list request, and for
every prior state that state has the empty index (`uploadedFiles = {}`, `allPhotosFlat = []`)
when the response is not a success, when the request or the parsing of its body fails, and
when a success response has no `photos`. -/
theorem load_failure_gives_empty_index (s : AppState) :
    ((loadPhotosFromServer ListResponse.notOk s).uploadedFiles = [] ∧
        (loadPhotosFromServer ListResponse.notOk s).allPhotosFlat = []) ∧
      ((loadPhotosFromServer ListResponse.failed s).uploadedFiles = [] ∧
        (loadPhotosFromServer ListResponse.failed s).allPhotosFlat = []) ∧
      ((loadPhotosFromServer (ListResponse.ok none) s).uploadedFiles = [] ∧
        (loadPhotosFromServer (ListResponse.ok none) s).allPhotosFlat = []) := by
  refine ⟨⟨rfl, rfl⟩, ⟨rfl, rfl⟩, ⟨rfl, rfl⟩⟩

/-! ## Deleting -/

/-- C13: a confirmed `deleteAllPhotos` whose request succeeds leaves `allPhotosFlat` and
`uploadedFiles` empty and shows the success message with the number of records that
`allPhotosFlat` held before. -/
theorem deleteAllPhotos_clears_and_reports (pf : Platform) (s : AppState) (page : Page) :
    (deleteAllPhotos pf true PostOutcome.ok s page).state.allPhotosFlat = [] ∧
      (deleteAllPhotos pf true PostOutcome.ok s page).state.uploadedFiles = [] ∧
      (deleteAllPhotos pf true PostOutcome.ok s page).page.statusMessage
        = some { message := "Successfully deleted " ++ natToString s.allPhotosFlat.length
                   ++ " photos!"
                 type := StatusType.success } := by
  have h := redrawAfterDelete_of_empty pf (clearLocalState s) page rfl
  simp only [deleteAllPhotos, Bool.true_eq_false, if_false, h]
  exact ⟨rfl, rfl, rfl⟩

/-- C17: when the confirmation is declined `deleteSinglePhoto` sends no request and leaves
state and page as they were; when the request is confirmed and fails, by an error response or
a network error, the state, and with it `allPhotosFlat` and `uploadedFiles`, is left as it
was. -/
theorem deleteSinglePhoto_keeps_index_unless_success (pf : Platform) (outcome : PostOutcome)
    (photoId : String) (s : AppState) (page : Page) :
    ((deleteSinglePhoto pf false outcome photoId s page).requests = [] ∧
        (deleteSinglePhoto pf false outcome photoId s page).state = s ∧
        (deleteSinglePhoto pf false outcome photoId s page).page = page) ∧
      (outcome ≠ PostOutcome.ok →
        (deleteSinglePhoto pf true outcome photoId s page).state = s ∧
        (deleteSinglePhoto pf true outcome photoId s page).state.allPhotosFlat
          = s.allPhotosFlat ∧
        (deleteSinglePhoto pf true outcome photoId s page).state.uploadedFiles
          = s.uploadedFiles) := by
  refine ⟨⟨rfl, rfl, rfl⟩, fun h => ?_⟩
  cases outcome with
  | ok => exact absurd rfl h
  | errorJson error => exact ⟨rfl, rfl, rfl⟩
  | errorNoJson message => exact ⟨rfl, rfl, rfl⟩
  | networkError message => exact ⟨rfl, rfl, rfl⟩



/-! ## Single upload -/

theorem reloadAndRedraw_filesToUpload (pf : Platform) (reload : ListResponse) (s : AppState)
    (page : Page) : (reloadAndRedraw pf reload s page).state.filesToUpload = s.filesToUpload := by
  have h := (redrawAfterLoad_state pf (loadPhotosFromServer reload s) page).1
  have hl : (loadPhotosFromServer reload s).filesToUpload = s.filesToUpload := by
    cases reload <;> rfl
  simp only [reloadAndRedraw]
  rw [h, hl]

theorem reloadAndRedraw_requests (pf : Platform) (reload : ListResponse) (s : AppState)
    (page : Page) :
    (reloadAndRedraw pf reload s page).requests = [photosRequest pf.env, jsonViewerRequest pf.env] :=
  rfl

/-- The counters of the loop when no error response has an unparsable body: together they
grow by the number of files, and the success counter by the number of success responses. -/
theorem uploadLoop_counts (outcome : Nat → UploadOutcome) (files : List File) :
    ∀ (i : Nat) (counts : Nat × Nat),
      (∀ j, j < files.length → outcome (i + j) ≠ UploadOutcome.errorNoJson) →
      (uploadLoop outcome i files counts).1 + (uploadLoop outcome i files counts).2
          = counts.1 + counts.2 + files.length ∧
        (uploadLoop outcome i files counts).1
          = counts.1 + ((List.range files.length).filter
              (fun j => outcome (i + j) = UploadOutcome.ok)).length := by
  induction files with
  | nil =>
    intro i counts _
    simp [uploadLoop]
  | cons file rest ih =>
    intro i counts h
    have hrest : ∀ j, j < rest.length → outcome (i + 1 + j) ≠ UploadOutcome.errorNoJson := by
      intro j hj
      have := h (j + 1) (by simp only [List.length_cons]; omega)
      rwa [show i + (j + 1) = i + 1 + j by omega] at this
    have h0 := h 0 (by simp)
    rw [Nat.add_zero] at h0
    have hrange : (List.range (file :: rest).length).filter
        (fun j => outcome (i + j) = UploadOutcome.ok)
        = (if outcome i = UploadOutcome.ok then [0] else [])
          ++ ((List.range rest.length).filter
              (fun j => outcome (i + 1 + j) = UploadOutcome.ok)).map Nat.succ := by
      rw [List.length_cons, List.range_succ_eq_map, List.filter_cons]
      simp only [Nat.add_zero, List.filter_map]
      have hf : ((fun j => decide (outcome (i + j) = UploadOutcome.ok)) ∘ Nat.succ)
          = (fun j => decide (outcome (i + 1 + j) = UploadOutcome.ok)) := by
        funext j
        simp only [Function.comp, Nat.succ_eq_add_one]
        rw [show i + (j + 1) = i + 1 + j by omega]
      rw [hf]
      by_cases hok : outcome i = UploadOutcome.ok
      · simp [hok]
      · simp [hok]
    rw [hrange]
    unfold uploadLoop
    cases ho : outcome i with
    | ok =>
      obtain ⟨e1, e2⟩ := ih (i + 1) (counts.1 + 1, counts.2) hrest
      rw [e1, e2]
      simp only [List.length_cons, List.length_append, List.length_map, List.length_nil,
        if_true]
      omega
    | errorJson =>
      obtain ⟨e1, e2⟩ := ih (i + 1) (counts.1, counts.2 + 1) hrest
      rw [e1, e2]
      simp only [List.length_cons, List.length_append, List.length_map, List.length_nil,
        if_neg (show ¬(UploadOutcome.errorJson = UploadOutcome.ok) by decide),
        if_neg (show ¬(UploadOutcome.networkError = UploadOutcome.ok) by decide)]
      omega
    | errorNoJson => exact absurd ho h0
    | networkError =>
      obtain ⟨e1, e2⟩ := ih (i + 1) (counts.1, counts.2 + 1) hrest
      rw [e1, e2]
      simp only [List.length_cons, List.length_append, List.length_map, List.length_nil,
        if_neg (show ¬(UploadOutcome.errorJson = UploadOutcome.ok) by decide),
        if_neg (show ¬(UploadOutcome.networkError = UploadOutcome.ok) by decide)]
      omega



/-- The run of `uploadSinglePhoto` once the form passed its checks. -/
theorem uploadSinglePhoto_of_valid (pf : Platform) (outcome : Nat → UploadOutcome)
    (reload : ListResponse) (s : AppState) (page : Page)
    (hfiles : s.filesToUpload ≠ [])
    (hform : trim page.photoTitle ≠ "" ∧ page.photoDate ≠ "" ∧ page.photoTime ≠ "") :
    (uploadSinglePhoto pf outcome reload s page).successCount
        = (uploadLoop outcome 0 s.filesToUpload (0, 0)).1 ∧
      (uploadSinglePhoto pf outcome reload s page).errorCount
        = (uploadLoop outcome 0 s.filesToUpload (0, 0)).2 ∧
      (uploadSinglePhoto pf outcome reload s page).requests
        = s.filesToUpload.map (uploadSingleRequest pf.env page)
          ++ (if (uploadLoop outcome 0 s.filesToUpload (0, 0)).1 > 0
              then [photosRequest pf.env, jsonViewerRequest pf.env] else []) ∧
      (uploadSinglePhoto pf outcome reload s page).state.filesToUpload
        = (if (uploadLoop outcome 0 s.filesToUpload (0, 0)).1 > 0 then [] else s.filesToUpload) ∧
      ((uploadLoop outcome 0 s.filesToUpload (0, 0)).2 > 0 →
        (uploadSinglePhoto pf outcome reload s page).page.singleUploadStatusMessage
          = some { message := uploadFailureMessage (uploadLoop outcome 0 s.filesToUpload (0, 0)).1
                     (uploadLoop outcome 0 s.filesToUpload (0, 0)).2
                   type := StatusType.error }) := by
  have h1 : ¬ s.filesToUpload.length = 0 := fun h => hfiles (List.length_eq_zero.mp h)
  have h2 : ¬ (trim page.photoTitle = "" ∨ page.photoDate = "" ∨ page.photoTime = "") := by
    rintro (h | h | h)
    · exact hform.1 h
    · exact hform.2.1 h
    · exact hform.2.2 h
  unfold uploadSinglePhoto
  rw [if_neg h1, if_neg h2]
  refine ⟨rfl, rfl, ?_, ?_, ?_⟩
  · simp only []
    by_cases hs : (uploadLoop outcome 0 s.filesToUpload (0, 0)).1 > 0
    · rw [if_pos hs, if_pos hs, reloadAndRedraw_requests]
    · rw [if_neg hs, if_neg hs]
  · simp only []
    by_cases hs : (uploadLoop outcome 0 s.filesToUpload (0, 0)).1 > 0
    · rw [if_pos hs, if_pos hs, reloadAndRedraw_filesToUpload]
    · rw [if_neg hs, if_neg hs]
  · intro he
    simp only []
    rw [if_pos he]
    rfl

set_option maxRecDepth 4000 in
/-- C12 (amended): with the form filled in, at least one file staged, and an outcome sequence
in which no error response has a body that fails to parse as JSON, `uploadSinglePhoto` issues
one upload request per staged file in list order (followed by the two reload requests when a
file succeeded), ends with `successCount + errorCount = n`, `successCount` being the number of
success responses, clears the staged files exactly when `successCount > 0`, and when
`errorCount > 0` ends with the error banner that gives the number of failed files, followed by
the number of uploaded ones only when `successCount > 0`; with three staged files of which the
second gets an error response with a JSON body, it ends with two successes, one failure, no
file staged and the banner "1 file(s) failed to upload. 2 uploaded successfully.". -/
theorem uploadSinglePhoto_counts (pf : Platform) (outcome : Nat → UploadOutcome)
    (reload : ListResponse) (s : AppState) (page : Page)
    (hfiles : s.filesToUpload ≠ [])
    (hform : trim page.photoTitle ≠ "" ∧ page.photoDate ≠ "" ∧ page.photoTime ≠ "")
    (hjson : ∀ i, i < s.filesToUpload.length → outcome i ≠ UploadOutcome.errorNoJson) :
    (uploadSinglePhoto pf outcome reload s page).requests
        = s.filesToUpload.map (uploadSingleRequest pf.env page)
          ++ (if (uploadSinglePhoto pf outcome reload s page).successCount > 0
              then [photosRequest pf.env, jsonViewerRequest pf.env] else []) ∧
      (uploadSinglePhoto pf outcome reload s page).successCount
          + (uploadSinglePhoto pf outcome reload s page).errorCount
        = s.filesToUpload.length ∧
      (uploadSinglePhoto pf outcome reload s page).successCount
        = ((List.range s.filesToUpload.length).filter
            (fun i => outcome i = UploadOutcome.ok)).length ∧
      ((uploadSinglePhoto pf outcome reload s page).state.filesToUpload = [] ↔
        (uploadSinglePhoto pf outcome reload s page).successCount > 0) ∧
      ((uploadSinglePhoto pf outcome reload s page).errorCount > 0 →
        (uploadSinglePhoto pf outcome reload s page).page.singleUploadStatusMessage
          = some { message :=
                     natToString (uploadSinglePhoto pf outcome reload s page).errorCount
                       ++ " file(s) failed to upload. "
                       ++ (if (uploadSinglePhoto pf outcome reload s page).successCount > 0
                           then natToString
                               (uploadSinglePhoto pf outcome reload s page).successCount
                             ++ " uploaded successfully."
                           else "")
                   type := StatusType.error }) ∧
      ((uploadSinglePhoto samplePlatform secondFails (ListResponse.ok (some sampleGrouped))
          threeStaged filledPage).successCount = 2 ∧
        (uploadSinglePhoto samplePlatform secondFails (ListResponse.ok (some sampleGrouped))
          threeStaged filledPage).errorCount = 1 ∧
        (uploadSinglePhoto samplePlatform secondFails (ListResponse.ok (some sampleGrouped))
          threeStaged filledPage).state.filesToUpload = [] ∧
        (uploadSinglePhoto samplePlatform secondFails (ListResponse.ok (some sampleGrouped))
          threeStaged filledPage).page.singleUploadStatusMessage
          = some { message := "1 file(s) failed to upload. 2 uploaded successfully."
                   type := StatusType.error }) := by
  obtain ⟨hs, he, hreq, hstaged, hmsg⟩ :=
    uploadSinglePhoto_of_valid pf outcome reload s page hfiles hform
  obtain ⟨c1, c2⟩ := uploadLoop_counts outcome s.filesToUpload 0 (0, 0)
    (fun j hj => by rw [Nat.zero_add]; exact hjson j hj)
  simp only [Nat.zero_add] at c1 c2
  rw [hs, he]
  refine ⟨hreq, c1, c2, ?_, ?_, by decide⟩
  · rw [hstaged]
    by_cases hpos : (uploadLoop outcome 0 s.filesToUpload (0, 0)).1 > 0
    · rw [if_pos hpos]
      exact ⟨fun _ => hpos, fun _ => rfl⟩
    · rw [if_neg hpos]
      exact ⟨fun h => absurd h hfiles, fun h => absurd h hpos⟩
  · intro hpos
    rw [hmsg hpos]
    rfl

set_option maxRecDepth 4000 in
/-- C12 (witness): three staged files, the second of which fails: three upload requests, two
successes and one failure, the staged list cleared, and the final banner
"1 file(s) failed to upload. 2 uploaded successfully.". -/
theorem uploadSinglePhoto_counts_witness :
    (uploadSinglePhoto samplePlatform secondFails (ListResponse.ok (some sampleGrouped))
        threeStaged filledPage).successCount = 2 ∧
      (uploadSinglePhoto samplePlatform secondFails (ListResponse.ok (some sampleGrouped))
        threeStaged filledPage).errorCount = 1 ∧
      (uploadSinglePhoto samplePlatform secondFails (ListResponse.ok (some sampleGrouped))
        threeStaged filledPage).state.filesToUpload = [] ∧
      (uploadSinglePhoto samplePlatform secondFails (ListResponse.ok (some sampleGrouped))
        threeStaged filledPage).page.singleUploadStatusMessage
        = some { message := "1 file(s) failed to upload. 2 uploaded successfully."
                 type := StatusType.error } := by
  have h := uploadSinglePhoto_counts samplePlatform secondFails
    (ListResponse.ok (some sampleGrouped)) threeStaged filledPage (by decide) (by decide)
    (by decide)
  have hs : (uploadSinglePhoto samplePlatform secondFails (ListResponse.ok (some sampleGrouped))
      threeStaged filledPage).successCount = 2 := by
    rw [h.2.2.1]
    decide
  have he : (uploadSinglePhoto samplePlatform secondFails (ListResponse.ok (some sampleGrouped))
      threeStaged filledPage).errorCount = 1 := by
    have := h.2.1
    rw [hs] at this
    have hl : threeStaged.filesToUpload.length = 3 := rfl
    omega
  refine ⟨hs, he, h.2.2.2.1.mpr (by rw [hs]; decide), ?_⟩
  rw [h.2.2.2.2.1 (by rw [he]; decide), hs, he]
  decide

set_option maxRecDepth 4000 in
/-- C12 (as stated) fails: with one staged file whose request gets an error response,
`errorCount` is 1 and the final banner is "1 file(s) failed to upload. ", without the number
of uploaded files; and when the body of that error response does not parse, the file is
counted twice, so that `successCount + errorCount` is 2 for one staged file. -/
theorem uploadSinglePhoto_all_failed :
    ((uploadSinglePhoto samplePlatform (fun _ => UploadOutcome.errorJson)
          (ListResponse.ok (some sampleGrouped)) oneStaged filledPage).errorCount = 1 ∧
        (uploadSinglePhoto samplePlatform (fun _ => UploadOutcome.errorJson)
          (ListResponse.ok (some sampleGrouped)) oneStaged filledPage).page.singleUploadStatusMessage
          = some { message := "1 file(s) failed to upload. ", type := StatusType.error }) ∧
      (oneStaged.filesToUpload.length = 1 ∧
        (uploadSinglePhoto samplePlatform (fun _ => UploadOutcome.errorNoJson)
            (ListResponse.ok (some sampleGrouped)) oneStaged filledPage).successCount
          + (uploadSinglePhoto samplePlatform (fun _ => UploadOutcome.errorNoJson)
            (ListResponse.ok (some sampleGrouped)) oneStaged filledPage).errorCount = 2) := by
  decide

/-- C16: `checkSingleUploadFormValidity` enables the submit button exactly when title, date
and time are non-empty after trimming and a file is staged, and disables it otherwise; and
`uploadSinglePhoto` sends no request when no file is staged, when the title is blank, or when
date or time is empty. -/
theorem single_upload_validation (pf : Platform) (outcome : Nat → UploadOutcome)
    (reload : ListResponse) (s : AppState) (page : Page) :
    ((checkSingleUploadFormValidity s page).submitSingleUploadBtnDisabled = false ↔
        trim page.photoTitle ≠ "" ∧ trim page.photoDate ≠ "" ∧ trim page.photoTime ≠ "" ∧
          s.filesToUpload ≠ []) ∧
      ((checkSingleUploadFormValidity s page).submitSingleUploadBtnDisabled = true ↔
        ¬(trim page.photoTitle ≠ "" ∧ trim page.photoDate ≠ "" ∧ trim page.photoTime ≠ "" ∧
          s.filesToUpload ≠ [])) ∧
      ((s.filesToUpload = [] ∨ trim page.photoTitle = "" ∨ page.photoDate = "" ∨
          page.photoTime = "") →
        (uploadSinglePhoto pf outcome reload s page).requests = []) := by
  have hcond : (trim page.photoTitle != "" && trim page.photoDate != ""
      && trim page.photoTime != "" && decide (s.filesToUpload.length > 0)) = true ↔
      (trim page.photoTitle ≠ "" ∧ trim page.photoDate ≠ "" ∧ trim page.photoTime ≠ "" ∧
        s.filesToUpload ≠ []) := by
    simp only [Bool.and_eq_true, bne_iff_ne, ne_eq, decide_eq_true_eq, List.length_pos,
      and_assoc]
  refine ⟨?_, ?_, ?_⟩
  · rw [← hcond]
    unfold checkSingleUploadFormValidity
    split <;> simp_all
  · rw [← hcond]
    unfold checkSingleUploadFormValidity
    split <;> simp_all
  · intro h
    unfold uploadSinglePhoto
    by_cases h0 : s.filesToUpload.length = 0
    · rw [if_pos h0]
    · rw [if_neg h0]
      have hne : s.filesToUpload ≠ [] := fun e => h0 (by rw [e]; rfl)
      rcases h with h | h
      · exact absurd h hne
      · rw [if_pos h]

/-- C16 (witness): with a blank title nothing is sent, whatever is staged. -/
theorem single_upload_validation_witness :
    (uploadSinglePhoto samplePlatform secondFails (ListResponse.ok (some sampleGrouped))
      threeStaged blankPage).requests = [] :=
  (single_upload_validation samplePlatform secondFails (ListResponse.ok (some sampleGrouped))
    threeStaged blankPage).2.2 (Or.inr (Or.inl (by decide)))



/-! ## Cache busting -/

/-- C15 (code evaluated at the failing input): of the read requests of the client, the photo
list, the raw metadata of `updateJsonViewer` and the images carry the parameter `?_=`, and the
raw metadata request of `downloadJSON` does not: its address is `origin/api/metadata`. -/
theorem downloadJSON_metadata_without_cache_buster :
    (downloadJSON sampleEnv (ListResponse.ok (some sampleGrouped)) MetadataOutcome.failed
        sampleState blankPage).1.requests.map (fun request => request.url)
        = ["http://localhost:5000/api/photos?_=1704470400000",
            "http://localhost:5000/api/metadata"] ∧
      hasCacheBuster "http://localhost:5000/api/metadata" = false ∧
      (updateJsonViewer sampleEnv MetadataOutcome.failed).1.url
        = "http://localhost:5000/api/metadata?_=1704470400000" ∧
      (readUrls sampleEnv photo1000).map hasCacheBuster = [true, true, false, true] := by
  decide

/-! ## The edit flow -/

theorem find_some_of_mem (photoId : String) (photos : List PhotoRecord)
    (h : ∃ p ∈ photos, p.id = photoId) :
    ∃ p, photos.find? (fun photo => photo.id == photoId) = some p := by
  obtain ⟨p, hp, hid⟩ := h
  cases hf : photos.find? (fun photo => photo.id == photoId) with
  | some q => exact ⟨q, rfl⟩
  | none =>
    have := List.find?_eq_none.mp hf p hp
    simp [hid] at this

theorem find_none_of_not_mem (photoId : String) (photos : List PhotoRecord)
    (h : ∀ p ∈ photos, p.id ≠ photoId) :
    photos.find? (fun photo => photo.id == photoId) = none := by
  rw [List.find?_eq_none]
  intro p hp
  simpa using h p hp

/-- C18: after `onPhotoSelectedForEdit` the pending rotation is 0 whatever the edit state was;
the editing id is the selected id, and the form is shown, when a record with that id is in
`allPhotosFlat`; it is `null`, and the form is hidden, when the empty choice is selected or
no record has the id; and a `saveEditedPhoto` that does not succeed leaves the state, and with
it the editing id and the pending rotation, as it was. -/
theorem edit_selection_and_failed_save (pf : Platform) (photoId : String) (outcome : PostOutcome)
    (reload : ListResponse) (s : AppState) (page : Page) :
    (onPhotoSelectedForEdit pf.env photoId s page).1.currentEditPhotoRotation = 0 ∧
      ((photoId ≠ "" ∧ ∃ p ∈ s.allPhotosFlat, p.id = photoId) →
        (onPhotoSelectedForEdit pf.env photoId s page).1.currentlyEditingPhotoId = some photoId ∧
        (onPhotoSelectedForEdit pf.env photoId s page).2.editFormFieldsShown = true) ∧
      ((photoId = "" ∨ ∀ p ∈ s.allPhotosFlat, p.id ≠ photoId) →
        (onPhotoSelectedForEdit pf.env photoId s page).1.currentlyEditingPhotoId = none ∧
        (onPhotoSelectedForEdit pf.env photoId s page).2.editFormFieldsShown = false) ∧
      (outcome ≠ PostOutcome.ok →
        (saveEditedPhoto pf outcome reload s page).state = s ∧
        (saveEditedPhoto pf outcome reload s page).state.currentlyEditingPhotoId
          = s.currentlyEditingPhotoId ∧
        (saveEditedPhoto pf outcome reload s page).state.currentEditPhotoRotation
          = s.currentEditPhotoRotation) := by
  refine ⟨?_, ?_, ?_, ?_⟩
  · unfold onPhotoSelectedForEdit
    split
    · rfl
    · split <;> rfl
  · rintro ⟨hne, hmem⟩
    obtain ⟨p, hp⟩ := find_some_of_mem photoId s.allPhotosFlat hmem
    unfold onPhotoSelectedForEdit
    rw [if_neg hne, hp]
    exact ⟨rfl, rfl⟩
  · intro h
    unfold onPhotoSelectedForEdit
    by_cases he : photoId = ""
    · rw [if_pos he]
      exact ⟨rfl, rfl⟩
    · rw [if_neg he]
      rcases h with h | h
      · exact absurd h he
      · rw [find_none_of_not_mem photoId s.allPhotosFlat h]
        exact ⟨rfl, rfl⟩
  · intro h
    have hstate : (saveEditedPhoto pf outcome reload s page).state = s := by
      unfold saveEditedPhoto
      split
      · rfl
      · split
        · rfl
        · cases outcome with
          | ok => exact absurd rfl h
          | errorJson error => rfl
          | errorNoJson message => rfl
          | networkError message => rfl
    rw [hstate]
    exact ⟨rfl, rfl, rfl⟩

/-- C18 (witness): with the photo `p1` open in the edit form and turned by 180 degrees,
selecting `p2`, which is in `allPhotosFlat`, makes `p2` the editing id and shows the form. -/
theorem edit_selection_and_failed_save_witness :
    (onPhotoSelectedForEdit sampleEnv "p2"
        { sampleState with currentlyEditingPhotoId := some "p1", currentEditPhotoRotation := 180 }
        blankPage).1.currentlyEditingPhotoId = some "p2" ∧
      (onPhotoSelectedForEdit sampleEnv "p2"
        { sampleState with currentlyEditingPhotoId := some "p1", currentEditPhotoRotation := 180 }
        blankPage).2.editFormFieldsShown = true :=
  (edit_selection_and_failed_save samplePlatform "p2" PostOutcome.ok ListResponse.failed
    { sampleState with currentlyEditingPhotoId := some "p1", currentEditPhotoRotation := 180 }
    blankPage).2.1 ⟨by decide, photo1500, by decide, rfl⟩

/-! ## The bulk submit button -/

/-- C19 (code evaluated at the failing input): with one image staged and a success response,
`bulkUploadPhotos` ends with no file staged and the submit button enabled: the `finally` block
enables the button after the success branch has disabled it. -/
theorem bulkUploadPhotos_success_leaves_button_enabled :
    oneBulkStaged.filesToBulkUpload = [⟨"a.jpg", "image/jpeg"⟩] ∧
      (bulkUploadPhotos samplePlatform (BulkOutcome.ok (some "1 photo(s) uploaded"))
        (ListResponse.ok (some sampleGrouped)) oneBulkStaged blankPage).state.filesToBulkUpload
        = [] ∧
      (bulkUploadPhotos samplePlatform (BulkOutcome.ok (some "1 photo(s) uploaded"))
        (ListResponse.ok (some sampleGrouped)) oneBulkStaged blankPage).page.submitBulkUploadBtnDisabled
        = false := by
  decide

/-! ## Month navigation -/

/-- C20 (code evaluated at the failing input): with the calendar on 31 January 2024,
`nextMonth` moves it to 2 March 2024 and shows March, not February, and a `previousMonth`
after it shows February, not January; with the calendar on 31 March 2024, `previousMonth`
leaves it in March. -/
theorem month_navigation_skips_on_day_31 :
    january31.currentDate = ⟨2024, 0, 31⟩ ∧
      (nextMonth ⟨2024, 0, 31⟩ january31).1.currentDate = ⟨2024, 2, 2⟩ ∧
      (nextMonth ⟨2024, 0, 31⟩ january31).2.currentMonth = "March 2024" ∧
      (previousMonth ⟨2024, 0, 31⟩ (nextMonth ⟨2024, 0, 31⟩ january31).1).2.currentMonth
        = "February 2024" ∧
      (previousMonth ⟨2024, 2, 31⟩ march31).1.currentDate = ⟨2024, 2, 2⟩ ∧
      (previousMonth ⟨2024, 2, 31⟩ march31).2.currentMonth = "March 2024" := by
  decide

/-! ## Rotation in the edit form -/

theorem rotateImage_rotation (s : AppState) (page : Page) :
    (rotateImage s page).1.currentEditPhotoRotation
        = (if truthyId s.currentlyEditingPhotoId = false then s.currentEditPhotoRotation
          else (s.currentEditPhotoRotation + 90) % 360) ∧
      (rotateImage s page).1.currentlyEditingPhotoId = s.currentlyEditingPhotoId := by
  unfold rotateImage
  split <;> exact ⟨rfl, rfl⟩

theorem saveEditedPhoto_rotation (pf : Platform) (outcome : PostOutcome) (reload : ListResponse)
    (s : AppState) (page : Page) :
    (saveEditedPhoto pf outcome reload s page).state.currentEditPhotoRotation
        = s.currentEditPhotoRotation ∨
      (saveEditedPhoto pf outcome reload s page).state.currentEditPhotoRotation = 0 := by
  unfold saveEditedPhoto
  split
  · exact Or.inl rfl
  · split
    · exact Or.inl rfl
    · cases outcome with
      | ok =>
        refine Or.inr ?_
        have h := (redrawAfterLoad_state pf (loadPhotosFromServer reload s)
          { (showEditStatus "Photo metadata updated successfully!" StatusType.success
              { page with saveEditBtnDisabled := true }) with }).2.2.2.2
        exact h
      | errorJson error => exact Or.inl rfl
      | errorNoJson message => exact Or.inl rfl
      | networkError message => exact Or.inl rfl

/-- Along every run of the edit flow the pending rotation is a number of quarter turns. -/
theorem editReachable_rotation (s : AppState) (h : EditReachable s) :
    s.currentEditPhotoRotation = 0 ∨ s.currentEditPhotoRotation = 90 ∨
      s.currentEditPhotoRotation = 180 ∨ s.currentEditPhotoRotation = 270 := by
  induction h with
  | init now => exact Or.inl rfl
  | load response s _ ih =>
    have e : (loadPhotosFromServer response s).currentEditPhotoRotation
        = s.currentEditPhotoRotation := by
      cases response <;> rfl
    rw [e]
    exact ih
  | renderEdit localeCompare s _ _ => exact Or.inl rfl
  | select env photoId s page _ _ =>
    refine Or.inl ?_
    unfold onPhotoSelectedForEdit
    split
    · rfl
    · split <;> rfl
  | rotate s page _ ih =>
    rw [(rotateImage_rotation s page).1]
    split
    · exact ih
    · rcases ih with h | h | h | h <;> rw [h] <;> decide
  | save pf outcome reload s page _ ih =>
    rcases saveEditedPhoto_rotation pf outcome reload s page with h | h
    · rw [h]
      exact ih
    · exact Or.inl h

/-- C21: in every state reachable through `renderEditPhotoSelection`, `onPhotoSelectedForEdit`
and `rotateImage` (and loads and saves in between), `currentEditPhotoRotation` is 0, 90, 180
or 270; with a photo open in the edit form `rotateImage` sets it to its value plus 90 modulo
360 and keeps the photo, so that four rotations in a row restore the value; and with no photo
open `rotateImage` leaves the state, and with it the rotation, as it was. -/
theorem rotation_is_quarter_turns (s : AppState) (page page2 page3 page4 : Page)
    (h : EditReachable s) :
    (s.currentEditPhotoRotation = 0 ∨ s.currentEditPhotoRotation = 90 ∨
        s.currentEditPhotoRotation = 180 ∨ s.currentEditPhotoRotation = 270) ∧
      (truthyId s.currentlyEditingPhotoId = true →
        (rotateImage s page).1.currentEditPhotoRotation
            = (s.currentEditPhotoRotation + 90) % 360 ∧
          (rotateImage s page).1.currentlyEditingPhotoId = s.currentlyEditingPhotoId ∧
          (rotateImage (rotateImage (rotateImage (rotateImage s page).1 page2).1 page3).1
              page4).1.currentEditPhotoRotation
            = s.currentEditPhotoRotation) ∧
      (truthyId s.currentlyEditingPhotoId = false →
        (rotateImage s page).1 = s ∧
          (rotateImage s page).1.currentEditPhotoRotation = s.currentEditPhotoRotation) := by
  have hq := editReachable_rotation s h
  refine ⟨hq, fun ht => ?_, fun hf => ?_⟩
  · have step : ∀ (t : AppState) (q : Page), truthyId t.currentlyEditingPhotoId = true →
        (rotateImage t q).1.currentEditPhotoRotation = (t.currentEditPhotoRotation + 90) % 360 ∧
          truthyId (rotateImage t q).1.currentlyEditingPhotoId = true := by
      intro t q hq
      obtain ⟨e1, e2⟩ := rotateImage_rotation t q
      rw [e1, e2, if_neg (by rw [hq]; decide)]
      exact ⟨rfl, hq⟩
    obtain ⟨r1, t1⟩ := step s page ht
    obtain ⟨r2, t2⟩ := step _ page2 t1
    obtain ⟨r3, t3⟩ := step _ page3 t2
    obtain ⟨r4, _⟩ := step _ page4 t3
    refine ⟨r1, (rotateImage_rotation s page).2, ?_⟩
    rw [r4, r3, r2, r1]
    rcases hq with e | e | e | e <;> rw [e]
  · have e : (rotateImage s page).1 = s := by
      unfold rotateImage
      rw [if_pos hf]
    rw [e]
    exact ⟨rfl, rfl⟩

/-- C21 (witness): with the sample photo `p1` open in the edit form and turned once, the
pending rotation is 90, one more `rotateImage` gives 180, and four give 90 again. -/
theorem rotation_is_quarter_turns_witness :
    EditReachable (rotateImage sampleEditing blankPage).1 ∧
      (rotateImage sampleEditing blankPage).1.currentEditPhotoRotation = 90 ∧
      (rotateImage (rotateImage sampleEditing blankPage).1 blankPage).1.currentEditPhotoRotation
        = 180 ∧
      (rotateImage (rotateImage (rotateImage (rotateImage
          (rotateImage sampleEditing blankPage).1 blankPage).1 blankPage).1 blankPage).1
          blankPage).1.currentEditPhotoRotation = 90 :=
  have hr : EditReachable (rotateImage sampleEditing blankPage).1 :=
    EditReachable.rotate _ _ (EditReachable.select _ _ _ _
      (EditReachable.load _ _ (EditReachable.init _)))
  have h := rotation_is_quarter_turns (rotateImage sampleEditing blankPage).1
    blankPage blankPage blankPage blankPage hr
  have h90 : (rotateImage sampleEditing blankPage).1.currentEditPhotoRotation = 90 := by decide
  have ht : truthyId (rotateImage sampleEditing blankPage).1.currentlyEditingPhotoId = true := by
    decide
  ⟨hr, h90, by rw [(h.2.1 ht).1, h90], by rw [(h.2.1 ht).2.2, h90]⟩

/-! ## Date headings and the zone of the browser -/

/-- C9 (code evaluated at the failing input): in a browser on UTC+13 the two records of text
`2024-01-05T10:00:00` and `2024-01-05T15:00:00` are parsed to 2024-01-04T21:00Z and
2024-01-05T02:00Z; both lie on the local day 2024-01-05, but their keys, taken from
`toISOString`, are 2024-01-04 and 2024-01-05, and `renderBlogGallery` emits two date headings
for the one calendar day, with the heavy separator between the two entries. -/
theorem blog_headings_split_one_local_day :
    photo1000Auckland.photoDateTime = 1704402000000 ∧
      photo1500Auckland.photoDateTime = 1704420000000 ∧
      localDateKey 780 photo1000Auckland.photoDateTime = "2024-01-05" ∧
      localDateKey 780 photo1500Auckland.photoDateTime = "2024-01-05" ∧
      dateKey photo1000Auckland.photoDateTime = "2024-01-04" ∧
      dateKey photo1500Auckland.photoDateTime = "2024-01-05" ∧
      (renderBlogGallery aucklandState).2
        = [BlogNode.dateHeading photo1500Auckland.photoDateTime,
            BlogNode.blogEntry photo1500Auckland,
            BlogNode.dateSeparator,
            BlogNode.dateHeading photo1000Auckland.photoDateTime,
            BlogNode.blogEntry photo1000Auckland] ∧
      ((renderBlogGallery aucklandState).2.filter BlogNode.isHeading).length = 2 := by
  decide

end DrawingPika
